import Mathlib

/-!
A formal model of the baileys-rest-api core: the durable-log ingestion
pipeline (src/services/ingestion.ts), the Prisma-backed persistent store
(src/services/prismaStore.ts), and the per-tenant webhook dispatcher
(src/services/waManager.ts).  Definitions are shallow embeddings of the
TypeScript source; theorems establish behavioural properties of the
embedded code.
-/

namespace Baileys

/-! ### String helpers (JS truthiness and substring search) -/

/-- Lower-case every character of a string, as JS toLowerCase does for
ASCII input. -/
def lowerStr (s : String) : String := String.mk (s.data.map Char.toLower)

/-- Does the needle occur at the head of the haystack? -/
def headMatches : List Char → List Char → Bool
  | [], _ => true
  | _ :: _, [] => false
  | a :: as, b :: bs => a == b && headMatches as bs

/-- Does the needle occur anywhere in the haystack (JS String.includes)? -/
def containsSub (needle : List Char) : List Char → Bool
  | [] => needle.isEmpty
  | c :: t => headMatches needle (c :: t) || containsSub needle t

/-- JS truthiness filter on an optional string: null/undefined and the empty
string are falsy. -/
def strTruthy : Option String → Option String
  | none => none
  | some "" => none
  | some s => some s

/-- JS `a || b` on optional strings (empty strings are falsy). -/
def jsOrStr (a b : Option String) : Option String :=
  match strTruthy a with
  | some s => some s
  | none => strTruthy b

/-- JS truthiness filter on an optional number: null/undefined and 0 are
falsy. -/
def natTruthy : Option Nat → Option Nat
  | none => none
  | some 0 => none
  | some n => some n

/-! ### The normalized message (type MessageInfo in ingestion.ts and
waManager.ts) -/

/-- The normalized in-memory message.  The source field `from` is called
`fromJid` here and the source field `type` is called `type_` (both are
Lean-reserved words).  The dynamically typed `content` field is modelled as
an optional string payload (the shapes exercised by the claims). -/
structure MessageInfo where
  id : String
  fromJid : String
  fromMe : Bool
  timestamp : Nat
  type_ : String
  pushName : Option String
  content : Option String
  isGroup : Bool
deriving Repr, DecidableEq

/-- PrismaStore.stringifyContent restricted to string-or-null contents (the
only shapes our messages carry): a falsy content gives null and a non-empty
string c is wrapped as JSON.stringify of the object with type text and text
c.  String escaping is omitted: contents considered here need none. -/
def stringifyContent : Option String → Option String
  | none => none
  | some "" => none
  | some c => some ("\x7b\"type\":\"text\",\"text\":\"" ++ c ++ "\"\x7d")

/-! ### The persistent store (src/services/prismaStore.ts plus the chats and
messages tables of the Prisma migrations, including the foreign key
messages.jid → chats.jid) -/

/-- A row of the chats table. -/
structure ChatRow where
  jid : String
  name : Option String
  isGroup : Bool
  unreadCount : Nat
  lastMessageTimestamp : Option Nat
  lastMessageText : Option String
deriving Repr, DecidableEq

/-- A row of the messages table. -/
structure MessageRow where
  id : String
  jid : String
  fromMe : Bool
  timestamp : Nat
  type_ : Option String
  pushName : Option String
  content : Option String
deriving Repr, DecidableEq

/-- The database state: the chats and messages tables. -/
structure Db where
  chats : List ChatRow
  messages : List MessageRow
deriving Repr, DecidableEq

/-- The Prisma client plus its connection health: when failing is true every
query rejects (connection down), which the PrismaStore wrappers catch. -/
structure World where
  db : Db
  failing : Bool
deriving Repr, DecidableEq

def Db.hasChat (db : Db) (jid : String) : Bool :=
  db.chats.any (fun c => c.jid == jid)

def Db.hasMessage (db : Db) (id : String) : Bool :=
  db.messages.any (fun m => m.id == id)

/-- The update object passed to prisma.chat.upsert: a present field
overwrites the column, an absent one leaves it unchanged. -/
structure ChatUpdate where
  name : Option String
  isGroup : Option Bool
  unreadCount : Option Nat
  lastMessageTimestamp : Option Nat
  lastMessageText : Option String
deriving Repr, DecidableEq

def applyChatUpdate (c : ChatRow) (u : ChatUpdate) : ChatRow :=
  ⟨c.jid,
   (match u.name with | some n => some n | none => c.name),
   u.isGroup.getD c.isGroup,
   u.unreadCount.getD c.unreadCount,
   (match u.lastMessageTimestamp with | some t => some t | none => c.lastMessageTimestamp),
   (match u.lastMessageText with | some t => some t | none => c.lastMessageText)⟩

/-- prisma.chat.upsert keyed on jid. -/
def prismaChatUpsert (w : World) (jid : String) (upd : ChatUpdate) (cre : ChatRow) :
    Except String World :=
  if w.failing then .error "connection closed" else
  if w.db.hasChat jid then
    .ok { w with db := { w.db with
            chats := w.db.chats.map (fun c => if c.jid == jid then applyChatUpdate c upd else c) } }
  else
    .ok { w with db := { w.db with chats := w.db.chats ++ [cre] } }

/-- prisma.message.upsert with an empty update object: a duplicate id is a
no-op; a fresh insert must satisfy the messages.jid → chats.jid foreign
key. -/
def prismaMessageUpsertIdem (w : World) (row : MessageRow) : Except String World :=
  if w.failing then .error "connection closed" else
  if w.db.hasMessage row.id then .ok w
  else if w.db.hasChat row.jid then
    .ok { w with db := { w.db with messages := w.db.messages ++ [row] } }
  else .error "foreign key constraint violated"

/-- prisma.message.create: fails on a duplicate id or a missing chat row. -/
def prismaMessageCreate (w : World) (row : MessageRow) : Except String World :=
  if w.failing then .error "connection closed" else
  if w.db.hasMessage row.id then .error "unique constraint failed on id"
  else if w.db.hasChat row.jid then
    .ok { w with db := { w.db with messages := w.db.messages ++ [row] } }
  else .error "foreign key constraint violated"

/-- The Partial-Chat argument of the single-chat upsert of PrismaStore
(source method name upsertChatPartial). -/
structure ChatFields where
  name : Option String
  subject : Option String
  isGroup : Option Bool
  unreadCount : Option Nat
  lastMessageTimestamp : Option Nat
  lastMessageText : Option String
deriving Repr, DecidableEq

/-- The catch-and-log pattern of every PrismaStore method: an error from the
underlying query is swallowed, keeping the state the query left behind. -/
def orUnchanged (w : World) : Except String World → World
  | .ok w1 => w1
  | .error _ => w

/-- The update object upsertChatPartial builds from its Partial-Chat
argument. -/
def chatFieldsUpd (jid : String) (fields : ChatFields) : ChatUpdate :=
  ⟨jsOrStr fields.name fields.subject,
   (match fields.isGroup with
    | some b => some b
    | none => if jid.endsWith "@g.us" then some true else none),
   fields.unreadCount,
   natTruthy fields.lastMessageTimestamp,
   strTruthy fields.lastMessageText⟩

/-- The create object upsertChatPartial builds from its Partial-Chat
argument. -/
def chatFieldsCre (jid : String) (fields : ChatFields) : ChatRow :=
  ⟨jid,
   jsOrStr fields.name fields.subject,
   fields.isGroup.getD (jid.endsWith "@g.us"),
   fields.unreadCount.getD 0,
   natTruthy fields.lastMessageTimestamp,
   strTruthy fields.lastMessageText⟩

/-- PrismaStore.upsertChatPartial (named upsertChatFields here; the source
name embeds a Lean-reserved word).  Returns without touching the store when
jid is falsy; otherwise upserts the chat row; any store error is caught and
logged, leaving the state as it was. -/
def upsertChatFields (w : World) (jid : String) (fields : ChatFields) : World :=
  if jid = "" then w
  else orUnchanged w (prismaChatUpsert w jid (chatFieldsUpd jid fields) (chatFieldsCre jid fields))

/-- The chat update built by saveMessage and saveMessagesBatch before the
message row is written: last-message bookkeeping plus the sender display
name. -/
def chatUpdateOfMessage (m : MessageInfo) : ChatFields :=
  ⟨strTruthy m.pushName,
   none,
   some (m.isGroup || m.fromJid.endsWith "@g.us"),
   none,
   some m.timestamp,
   stringifyContent m.content⟩

/-- The messages-table row a MessageInfo is persisted as; now is the clock
used for the zero-timestamp fallback (new Date()). -/
def messageRowOf (m : MessageInfo) (now : Nat) : MessageRow :=
  ⟨m.id, m.fromJid, m.fromMe,
   (if m.timestamp ≠ 0 then m.timestamp else now),
   strTruthy (some m.type_),
   strTruthy m.pushName,
   stringifyContent m.content⟩

/-- The operation saveMessagesBatch performs for one message of the batch:
upsert the chat, then upsert the message row with an empty update; an error
of the message upsert leaves the state as of the failure. -/
def saveMessagesBatchStep (now : Nat) (w1 : World) (mk : MessageInfo × String) : World :=
  let m := mk.1
  let w2 := upsertChatFields w1 m.fromJid (chatUpdateOfMessage m)
  orUnchanged w2 (prismaMessageUpsertIdem w2 (messageRowOf m now))

/-- PrismaStore.saveMessagesBatch: for each message (its idempotencyKey is
destructured away) upsert the chat, then upsert the message with an empty
update (duplicate ids are no-ops).  The per-record operations run under
Promise.all with no enclosing transaction — every record's operations
execute irrespective of other records' failures — and the aggregate error
is caught and logged, so the call always resolves. -/
def saveMessagesBatch (w : World) (now : Nat) (msgs : List (MessageInfo × String)) : World :=
  msgs.foldl (saveMessagesBatchStep now) w

/-- PrismaStore.saveMessage: upsert the chat first, then prisma.message.create
(which fails on duplicates); the whole body is wrapped in try/catch, so any
error leaves the state as it was at the failure and is swallowed. -/
def saveMessage (w : World) (now : Nat) (m : MessageInfo) : World :=
  let w1 := upsertChatFields w m.fromJid (chatUpdateOfMessage m)
  orUnchanged w1 (prismaMessageCreate w1 (messageRowOf m now))

/-- The loosely typed chat objects fed to PrismaStore.upsertChats by the
chats.set / chats.upsert handlers. -/
structure ChatIn where
  id : Option String
  jid : Option String
  name : Option String
  subject : Option String
  unreadCount : Option Nat
deriving Repr, DecidableEq

/-- One chat of an upsertChats bulk call: skipped when it carries neither
id nor jid, otherwise upserted. -/
def upsertChatsStep (w1 : World) (c : ChatIn) : World :=
  match jsOrStr c.id c.jid with
  | none => w1
  | some jid =>
    let isG := (c.id.getD "").endsWith "@g.us" || (c.jid.getD "").endsWith "@g.us"
    let upd : ChatUpdate := ⟨jsOrStr c.name c.subject, some isG, c.unreadCount, none, none⟩
    let cre : ChatRow := ⟨jid, jsOrStr c.name c.subject, isG, c.unreadCount.getD 0, none, none⟩
    orUnchanged w1 (prismaChatUpsert w1 jid upd cre)

/-- PrismaStore.upsertChats: bulk chat upsert inside prisma.$transaction;
chats without id and jid are skipped; with a failing store the transaction
rejects as a whole, nothing is applied and the error is swallowed. -/
def upsertChats (w : World) (chats : List ChatIn) : World :=
  if w.failing then w
  else chats.foldl upsertChatsStep w

/-! ### Ingestion records and the producer path
(src/services/ingestion.ts: computeIdempotencyKey, computeCorrelationId,
AsyncBoundedQueue.tryEnqueue, IngestionService.enqueueMessage) -/

/-- One line of the durable log (type IngestRecord). -/
structure IngestRecord where
  idempotencyKey : String
  correlationId : String
  receivedAt : Nat
  payload : MessageInfo
deriving Repr, DecidableEq

def computeIdempotencyKey (m : MessageInfo) : String := "wa:" ++ m.id

def computeCorrelationId (m : MessageInfo) : String :=
  if m.id ≠ "" then "cid:" ++ m.id
  else "cid:" ++ m.fromJid ++ ":" ++ toString m.timestamp

/-- The state the producer path touches: the durable log, the bounded
in-memory queue (buffer, capacity, ended flag) and the metrics counters it
updates. -/
structure IngestState where
  log : List IngestRecord
  queue : List IngestRecord
  queueCapacity : Nat
  queueEnded : Bool
  received : Nat
  enqueued : Nat
  logAppendFailedCount : Nat
deriving Repr, DecidableEq

/-- AsyncBoundedQueue.tryEnqueue: non-blocking; false when ended or full. -/
def tryEnqueue (st : IngestState) (r : IngestRecord) : IngestState × Bool :=
  if st.queueEnded then (st, false)
  else if st.queueCapacity ≤ st.queue.length then (st, false)
  else ({ st with queue := st.queue ++ [r] }, true)

/-- The result object of IngestionService.enqueueMessage. -/
structure EnqueueResult where
  accepted : Bool
  reason : Option String
  idempotencyKey : String
  correlationId : String
deriving Repr, DecidableEq

/-- IngestionService.enqueueMessage.  appendOk tells whether the durable-log
append-plus-fsync succeeds (the log file is an external effect); now is the
clock read for receivedAt.  A message with a falsy id or from is rejected
before the log is touched; an append failure is a rejection; otherwise the
producer is acked, the in-memory enqueue being best-effort only. -/
def mkIngestRecord (m : MessageInfo) (now : Nat) : IngestRecord :=
  ⟨computeIdempotencyKey m, computeCorrelationId m, now, m⟩

def enqueueMessage (st : IngestState) (m : MessageInfo) (appendOk : Bool) (now : Nat) :
    IngestState × EnqueueResult :=
  if m.id = "" ∨ m.fromJid = "" then
    (st, ⟨false, some "invalid_message", "", ""⟩)
  else
    let r : IngestRecord := mkIngestRecord m now
    if appendOk = false then
      ({ st with logAppendFailedCount := st.logAppendFailedCount + 1 },
       ⟨false, some "log_append_failed", r.idempotencyKey, r.correlationId⟩)
    else
      let st1 := { st with log := st.log ++ [r], received := st.received + 1 }
      let enq := tryEnqueue st1 r
      let st2 := if enq.2 then { enq.1 with enqueued := enq.1.enqueued + 1 } else enq.1
      (st2, ⟨true, none, r.idempotencyKey, r.correlationId⟩)

/-! ### Worker pool: transient-error classification, backoff, per-record
retry, split-on-failure and the dead-letter queue
(src/services/ingestion.ts: isTransientError, jitteredBackoff,
persistEachWithRetryOrDlq, persistBatchSplitOnFailure, writeToDlq,
persistBatchWithRetry) -/

/-- IngestionService.isTransientError: case-insensitive substring match on
the error message. -/
def isTransientError (msg : String) : Bool :=
  let ms := (lowerStr msg).data
  containsSub "busy".data ms || containsSub "locked".data ms ||
  containsSub "timeout".data ms || containsSub "ioerr".data ms ||
  containsSub "database is locked".data ms

/-- jitteredBackoff: exp = min(max, base·2^attempt); the Math.random jitter
term Math.floor(random · (exp · 0.2)) is passed in explicitly (any value in
[0, 0.2·exp) can occur). -/
def jitteredBackoff (attempt base maxMs jitter : Nat) : Nat :=
  min maxMs (base * 2 ^ attempt) + jitter

/-- The retry-policy record (defaults: base 100 ms, max 5000 ms, 10
attempts, 10 min horizon). -/
structure RetryCfg where
  baseMs : Nat
  maxMs : Nat
  maxAttempts : Nat
  maxHorizonMs : Nat
deriving Repr, DecidableEq

def defaultRetryCfg : RetryCfg := ⟨100, 5000, 10, 10 * 60 * 1000⟩

/-- An error surfaced by the store. -/
structure PErr where
  message : String
deriving Repr, DecidableEq

/-- The store as the worker pool sees it: saveBatch is
Store.saveMessagesBatch on the payload-plus-idempotencyKey projections; it
returns the store state after the call together with the error it rejected
with, if any (partial effects of a rejected call stay in the state). -/
structure StoreIface (σ : Type) where
  saveBatch : σ → List (MessageInfo × String) → σ × Option PErr

/-- Why a per-record retry loop ended (ghost trace, recorded for
specification purposes only; the labels follow the order of the source's
combined exit condition). -/
inductive ExitReason
  | success
  | dlqNonTransient
  | dlqAttemptsExhausted
  | dlqHorizonExhausted
deriving Repr, DecidableEq

/-- The state a worker thread acts on: the store, the metrics counters it
updates, the dead-letter log, the cumulative sleep time of its backoff
waits and the ghost trace of per-record exits. -/
structure WorkerState (σ : Type) where
  store : σ
  persisted : Nat
  retried : Nat
  deadLettered : Nat
  latencySamples : Nat
  dlq : List (IngestRecord × String)
  sumWait : Nat
  exits : List ExitReason

/-- IngestionService.persistOnce: one Store.saveMessagesBatch call on the
records' payloads plus idempotency keys. -/
def persistOnce (iface : StoreIface σ) (s : σ) (records : List IngestRecord) :
    σ × Option PErr :=
  iface.saveBatch s (records.map (fun r => (r.payload, r.idempotencyKey)))

/-- IngestionService.writeToDlq: append the record with its error string to
the dead-letter log and count it (the DLQ file append is taken to
succeed). -/
def writeToDlq (st : WorkerState σ) (r : IngestRecord) (e : PErr) : WorkerState σ :=
  { st with dlq := st.dlq ++ [(r, e.message)], deadLettered := st.deadLettered + 1 }

/-- The while-true body of persistEachWithRetryOrDlq for one record.  jit n
is the jitter drawn for the wait after the n-th failed attempt; ageAt n is
the record age (nowMs − receivedAt) observed at that failure.  The loop
always terminates: every continuing iteration increments attempt, and the
loop exits as soon as attempt reaches cfg.maxAttempts. -/
def persistRecordLoop (iface : StoreIface σ) (cfg : RetryCfg) (jit ageAt : Nat → Nat)
    (r : IngestRecord) (st : WorkerState σ) (attempt : Nat) : WorkerState σ :=
  match persistOnce iface st.store [r] with
  | (s1, none) => { st with store := s1, exits := st.exits ++ [ExitReason.success] }
  | (s1, some e) =>
    let st1 := { st with store := s1, retried := st.retried + 1 }
    let age := ageAt attempt
    if h : isTransientError e.message = false ∨ cfg.maxAttempts ≤ attempt ∨
           cfg.maxHorizonMs ≤ age then
      let reason :=
        if isTransientError e.message = false then ExitReason.dlqNonTransient
        else if cfg.maxAttempts ≤ attempt then ExitReason.dlqAttemptsExhausted
        else ExitReason.dlqHorizonExhausted
      let st2 := writeToDlq st1 r e
      { st2 with exits := st2.exits ++ [reason] }
    else
      let wait := jitteredBackoff attempt cfg.baseMs cfg.maxMs (jit attempt)
      persistRecordLoop iface cfg jit ageAt r
        { st1 with sumWait := st1.sumWait + wait } (attempt + 1)
termination_by cfg.maxAttempts + 1 - attempt
decreasing_by
  simp only [not_or, not_le] at h
  omega

/-- IngestionService.persistEachWithRetryOrDlq: run the retry loop on each
record in order, starting each at attempt 0. -/
def persistEachWithRetryOrDlq (iface : StoreIface σ) (cfg : RetryCfg)
    (jit ageAt : Nat → Nat) (st : WorkerState σ) (records : List IngestRecord) :
    WorkerState σ :=
  records.foldl (fun acc r => persistRecordLoop iface cfg jit ageAt r acc 0) st

/-- IngestionService.persistBatchSplitOnFailure: attempt the whole batch
once; on an error that is transient with more than one record and depth
below 20, split at ⌊n/2⌋ and recurse on each half; otherwise fall through
to the per-record retry path.  Recursion is on strictly smaller non-empty
halves, so the function is total (termination measure: the batch length). -/
def persistBatchSplitOnFailure (iface : StoreIface σ) (cfg : RetryCfg)
    (jit ageAt : Nat → Nat) (st : WorkerState σ) (records : List IngestRecord)
    (depth : Nat) : WorkerState σ :=
  if _h0 : records.length = 0 then st
  else
    match persistOnce iface st.store records with
    | (s1, none) => { st with store := s1 }
    | (s1, some e) =>
      let st1 := { st with store := s1 }
      if h1 : isTransientError e.message = false ∨ records.length = 1 ∨ 20 ≤ depth then
        persistEachWithRetryOrDlq iface cfg jit ageAt st1 records
      else
        let mid := records.length / 2
        let st2 := persistBatchSplitOnFailure iface cfg jit ageAt st1
          (records.take mid) (depth + 1)
        persistBatchSplitOnFailure iface cfg jit ageAt st2
          (records.drop mid) (depth + 1)
termination_by records.length
decreasing_by
  · simp only [not_or] at h1
    simp only [List.length_take]
    omega
  · simp only [not_or] at h1
    simp only [List.length_drop]
    omega

/-- IngestionService.persistBatchWithRetry: run split-on-failure from depth
0, then record a latency sample and advance the persisted counter by the
full batch length (the inner call handles all failures itself, so the
enclosing catch is unreachable and these two updates always run). -/
def persistBatchWithRetry (iface : StoreIface σ) (cfg : RetryCfg)
    (jit ageAt : Nat → Nat) (st : WorkerState σ) (records : List IngestRecord) :
    WorkerState σ :=
  let st1 := persistBatchSplitOnFailure iface cfg jit ageAt st records 0
  { st1 with latencySamples := st1.latencySamples + 1,
             persisted := st1.persisted + records.length }

/-! ### The replay loop's line consumption
(src/services/ingestion.ts: IngestionService.startReplayLoop).  The loop
opens a read stream at the current offset and iterates the lines produced
by readline; node's readline emits the final unterminated fragment of the
input as a line too. -/

/-- The line splitting performed by readline.createInterface: split at LF;
a trailing fragment not terminated by LF is also emitted as a line. -/
def readlineSplitGo (cur : List Char) : List Char → List (List Char)
  | [] => if cur.isEmpty then [] else [cur.reverse]
  | c :: rest =>
    if c = '\n' then cur.reverse :: readlineSplitGo [] rest
    else readlineSplitGo (c :: cur) rest

def readlineSplit (s : List Char) : List (List Char) := readlineSplitGo [] s

/-- JS !line.trim(): the line is empty or all whitespace. -/
def isBlankLine (l : List Char) : Bool := l.all Char.isWhitespace

/-- The observable outcome of one replay pass: the final byte offset, the
last checkpointed offset, the records handed to the queue, the running
enqueued counter (which drives the every-1000 checkpoint) and the parse
error count. -/
structure ReplayOut (ρ : Type) where
  offset : Nat
  checkpoint : Nat
  enqueued : List ρ
  enqueuedCount : Nat
  parseErrors : Nat
deriving Repr, DecidableEq

/-- The for-await-of body of the replay loop over the lines readline yields,
parameterised by the JSON parser.  Every consumed line advances the offset
by Buffer.byteLength(line + LF) (characters here are single-byte); a blank
line is skipped; a parsed record is enqueued (tryEnqueue is retried until
space frees, so delivery is certain) with a checkpoint every 1000 enqueues;
an unparseable line counts a replay_parse_error, is skipped past and
checkpointed.  At end of input the final offset is checkpointed. -/
def replayLines (parse : List Char → Option ρ) (st : ReplayOut ρ) :
    List (List Char) → ReplayOut ρ
  | [] => { st with checkpoint := st.offset }
  | line :: rest =>
    let lineBytes := line.length + 1
    if isBlankLine line then
      replayLines parse { st with offset := st.offset + lineBytes } rest
    else
      match parse line with
      | some r =>
        let cnt := st.enqueuedCount + 1
        let off := st.offset + lineBytes
        replayLines parse
          { st with enqueued := st.enqueued ++ [r], enqueuedCount := cnt, offset := off,
                    checkpoint := if cnt % 1000 = 0 then off else st.checkpoint } rest
      | none =>
        let off := st.offset + lineBytes
        replayLines parse
          { st with parseErrors := st.parseErrors + 1, offset := off, checkpoint := off } rest

/-- One pass of the replay loop from startOffset to the end of the current
file contents, with enq0 the enqueued counter carried in from earlier
passes. -/
def replayPass (parse : List Char → Option ρ) (file : List Char)
    (startOffset enq0 : Nat) : ReplayOut ρ :=
  replayLines parse ⟨startOffset, startOffset, [], enq0, 0⟩
    (readlineSplit (file.drop startOffset))

/-! ### The webhook dispatcher
(src/services/waManager.ts: TenantManager.notifyWebhook) and the phone
number derivation the exclusion feature keys on (the repo's
extractPhoneNumber helper). -/

/-- A row of the webhooks table as returned by ConfigStore.getWebhooks. -/
structure Webhook where
  id : String
  url : String
  name : Option String
  secret : String
  isActive : Bool
deriving Repr, DecidableEq

/-- One outgoing webhook HTTP POST (url plus the identifying headers). -/
structure WebhookPost where
  url : String
  event : String
  username : String
  webhookId : String
  webhookName : String
deriving Repr, DecidableEq

/-- The data argument of notifyWebhook as far as exclusion filtering is
concerned: the sender JID of the carried message, when there is one. -/
structure NotifyData where
  messageFrom : Option String
deriving Repr, DecidableEq

/-- The per-tenant configuration the dispatcher runs against: the webhooks
table and the excluded_numbers table (E.164 strings per username). -/
structure NotifyEnv where
  webhooks : String → List Webhook
  excludedNumbers : String → List String

/-- The characters before the first @ (JS jid.split at the @ separator,
first segment). -/
def charsBeforeAt : List Char → List Char
  | [] => []
  | c :: t => if c = '@' then [] else c :: charsBeforeAt t

/-- Extract an E.164 phone number from a JID: the digits before the @,
prefixed with +; null when no digits remain (the repo's extractPhoneNumber
helper). -/
def extractPhoneNumber (jid : String) : Option String :=
  if jid = "" then none
  else
    let cleanJid := String.mk (charsBeforeAt jid.data)
    if cleanJid = "" then none
    else
      let digits := String.mk (cleanJid.data.filter Char.isDigit)
      if digits = "" then none else some ("+" ++ digits)

/-- TenantManager.notifyWebhook: fetch the tenant's webhooks, keep the
active ones, return with no POST when none are active, otherwise POST to
every active webhook (all-settled, so the full list of requests is
issued).  The function never consults env.excludedNumbers. -/
def notifyWebhook (env : NotifyEnv) (username event : String) (_d : NotifyData) :
    List WebhookPost :=
  let activeWebhooks := (env.webhooks username).filter (fun w => w.isActive)
  if activeWebhooks.length = 0 then []
  else activeWebhooks.map (fun w => ⟨w.url, event, username, w.id, w.name.getD ""⟩)

/-! ### Store-interface instances for the worker-pool theorems -/

/-- The real PrismaStore plugged into the worker pool: saveMessagesBatch
catches every error and resolves normally, so the interface never reports a
rejection. -/
def prismaIface (now : Nat) : StoreIface World :=
  ⟨fun w msgs => (saveMessagesBatch w now msgs, none)⟩

/-- An abstract transactional store holding persisted message ids, in which
every batch containing the message id badId rejects with errMsg (and
persists nothing), and every other batch succeeds. -/
def poisonIface (badId : String) (errMsg : String) : StoreIface (List String) :=
  ⟨fun s msgs =>
    if msgs.any (fun mk => mk.1.id == badId) then (s, some ⟨errMsg⟩)
    else (s ++ msgs.map (fun mk => mk.1.id), none)⟩

/-- An abstract store that rejects its first failCount calls with errMsg and
succeeds afterwards; the state is the call counter paired with the
persisted message ids. -/
def flakyIface (failCount : Nat) (errMsg : String) : StoreIface (Nat × List String) :=
  ⟨fun s msgs =>
    if s.1 < failCount then ((s.1 + 1, s.2), some ⟨errMsg⟩)
    else ((s.1 + 1, s.2 ++ msgs.map (fun mk => mk.1.id)), none)⟩

/-! ### Sequences of store operations (for the chat-before-message
invariant) -/

/-- A persistence-path operation on the store. -/
inductive StoreOp
  | saveMsg (now : Nat) (m : MessageInfo)
  | saveBatch (now : Nat) (msgs : List (MessageInfo × String))
  | bulkChats (chats : List ChatIn)
  | chatFields (jid : String) (fields : ChatFields)

def applyOp (w : World) : StoreOp → World
  | .saveMsg now m => saveMessage w now m
  | .saveBatch now msgs => saveMessagesBatch w now msgs
  | .bulkChats chats => upsertChats w chats
  | .chatFields jid fields => upsertChatFields w jid fields

def applyOps (w : World) (ops : List StoreOp) : World :=
  ops.foldl applyOp w

/-- Every message row is backed by a chat row with the same jid. -/
def ChatForEachMessage (db : Db) : Prop :=
  ∀ mr ∈ db.messages, db.hasChat mr.jid = true

/-! ### Small query helpers used by the theorems -/

def countById (msgs : List MessageRow) (id : String) : Nat :=
  (msgs.filter (fun r => r.id == id)).length

def rowById (msgs : List MessageRow) (id : String) : Option MessageRow :=
  msgs.find? (fun r => r.id == id)

/-- Replay plus worker drain of a list of durable-log records: each record
is delivered to the store through Store.saveMessagesBatch (the worker's
persistOnce) in log order. -/
def drainLog (w : World) (now : Nat) (recs : List IngestRecord) : World :=
  recs.foldl (fun w1 r => saveMessagesBatch w1 now [(r.payload, r.idempotencyKey)]) w

/-! ### Store lemmas -/

theorem applyChatUpdate_jid (c : ChatRow) (u : ChatUpdate) :
    (applyChatUpdate c u).jid = c.jid := rfl

theorem jid_if_upsert (c : ChatRow) (jid : String) (u : ChatUpdate) :
    (if c.jid == jid then applyChatUpdate c u else c).jid = c.jid := by
  split <;> rfl

theorem hasChat_map_upsert (chats : List ChatRow) (jid j : String) (u : ChatUpdate) :
    ((chats.map (fun c => if c.jid == jid then applyChatUpdate c u else c)).any
        (fun c => c.jid == j)) =
      chats.any (fun c => c.jid == j) := by
  induction chats with
  | nil => rfl
  | cons c t ih =>
    simp only [List.map_cons, List.any_cons, ih, jid_if_upsert]

theorem orUnchanged_cases (w : World) (res : Except String World) :
    orUnchanged w res = w ∨ ∃ w1, res = .ok w1 ∧ orUnchanged w res = w1 := by
  cases res with
  | ok w1 => exact Or.inr ⟨w1, rfl, rfl⟩
  | error e => exact Or.inl rfl

theorem prismaChatUpsert_ok_messages {w w1 : World} {jid : String} {u : ChatUpdate}
    {c : ChatRow} (h : prismaChatUpsert w jid u c = .ok w1) :
    w1.db.messages = w.db.messages := by
  unfold prismaChatUpsert at h
  split at h
  · simp at h
  · split at h <;> · cases h; rfl

theorem prismaChatUpsert_ok_failing {w w1 : World} {jid : String} {u : ChatUpdate}
    {c : ChatRow} (h : prismaChatUpsert w jid u c = .ok w1) :
    w1.failing = w.failing := by
  unfold prismaChatUpsert at h
  split at h
  · simp at h
  · split at h <;> · cases h; rfl

theorem prismaChatUpsert_ok_hasChat_mono {w w1 : World} {jid j : String} {u : ChatUpdate}
    {c : ChatRow} (h : prismaChatUpsert w jid u c = .ok w1)
    (hj : w.db.hasChat j = true) : w1.db.hasChat j = true := by
  unfold prismaChatUpsert at h
  split at h
  · simp at h
  · split at h <;> cases h
    · show (w.db.chats.map _).any _ = true
      rw [hasChat_map_upsert]
      exact hj
    · show (w.db.chats ++ [c]).any _ = true
      rw [List.any_append]
      rw [Db.hasChat] at hj
      simp [hj]

theorem prismaChatUpsert_nonfailing_hasChat_self {w w1 : World} {jid : String}
    {u : ChatUpdate} {c : ChatRow} (h : prismaChatUpsert w jid u c = .ok w1)
    (hcre : c.jid = jid) :
    w1.db.hasChat jid = true := by
  unfold prismaChatUpsert at h
  split at h
  · simp at h
  · split at h <;> cases h
    · rename_i hnf hc
      show (w.db.chats.map _).any _ = true
      rw [hasChat_map_upsert]
      exact hc
    · show (w.db.chats ++ [c]).any _ = true
      rw [List.any_append]
      simp [hcre]

theorem prismaChatUpsert_ok_hasChat_other {w w1 : World} {jid j : String}
    {u : ChatUpdate} {c : ChatRow} (h : prismaChatUpsert w jid u c = .ok w1)
    (hcre : c.jid = jid) (hne : j ≠ jid) :
    w1.db.hasChat j = w.db.hasChat j := by
  unfold prismaChatUpsert at h
  split at h
  · simp at h
  · split at h <;> cases h
    · show (w.db.chats.map _).any _ = _
      rw [hasChat_map_upsert]
      rfl
    · show (w.db.chats ++ [c]).any _ = _
      rw [List.any_append]
      have : (c.jid == j) = false := by
        rw [hcre]
        exact beq_false_of_ne (fun hj => hne hj.symm)
      simp [this, Db.hasChat]

theorem prismaChatUpsert_of_failing {w : World} {jid : String} {u : ChatUpdate}
    {c : ChatRow} (h : w.failing = true) :
    prismaChatUpsert w jid u c = .error "connection closed" := by
  unfold prismaChatUpsert
  rw [h]
  simp

theorem upsertChatFields_empty_jid (w : World) (f : ChatFields) :
    upsertChatFields w "" f = w := rfl

theorem upsertChatFields_messages (w : World) (jid : String) (f : ChatFields) :
    (upsertChatFields w jid f).db.messages = w.db.messages := by
  unfold upsertChatFields
  split
  · rfl
  · rcases orUnchanged_cases w (prismaChatUpsert w jid (chatFieldsUpd jid f) (chatFieldsCre jid f))
      with h | ⟨w1, hok, h⟩ <;> rw [h]
    exact prismaChatUpsert_ok_messages hok

theorem upsertChatFields_failing (w : World) (jid : String) (f : ChatFields) :
    (upsertChatFields w jid f).failing = w.failing := by
  unfold upsertChatFields
  split
  · rfl
  · rcases orUnchanged_cases w (prismaChatUpsert w jid (chatFieldsUpd jid f) (chatFieldsCre jid f))
      with h | ⟨w1, hok, h⟩ <;> rw [h]
    exact prismaChatUpsert_ok_failing hok

theorem upsertChatFields_of_failing {w : World} (jid : String) (f : ChatFields)
    (h : w.failing = true) : upsertChatFields w jid f = w := by
  unfold upsertChatFields
  split
  · rfl
  · rw [prismaChatUpsert_of_failing h]
    rfl

theorem upsertChatFields_hasChat_mono {w : World} {j : String} (jid : String)
    (f : ChatFields) (h : w.db.hasChat j = true) :
    (upsertChatFields w jid f).db.hasChat j = true := by
  unfold upsertChatFields
  split
  · exact h
  · rcases orUnchanged_cases w (prismaChatUpsert w jid (chatFieldsUpd jid f) (chatFieldsCre jid f))
      with hc | ⟨w1, hok, hc⟩ <;> rw [hc]
    · exact h
    · exact prismaChatUpsert_ok_hasChat_mono hok h

theorem upsertChatFields_hasChat_self {w : World} {jid : String} (f : ChatFields)
    (hfail : w.failing = false) (hjid : jid ≠ "") :
    (upsertChatFields w jid f).db.hasChat jid = true := by
  unfold upsertChatFields
  split
  · exact absurd (by assumption) hjid
  · have hne : prismaChatUpsert w jid (chatFieldsUpd jid f) (chatFieldsCre jid f) =
        .ok (orUnchanged w (prismaChatUpsert w jid (chatFieldsUpd jid f) (chatFieldsCre jid f))) := by
      unfold prismaChatUpsert
      rw [hfail]
      simp only [Bool.false_eq_true, if_false]
      split <;> rfl
    exact prismaChatUpsert_nonfailing_hasChat_self hne rfl

theorem upsertChatFields_hasChat_other {w : World} {j jid : String} (f : ChatFields)
    (h : j ≠ jid) :
    (upsertChatFields w jid f).db.hasChat j = w.db.hasChat j := by
  unfold upsertChatFields
  split
  · rfl
  · rcases orUnchanged_cases w (prismaChatUpsert w jid (chatFieldsUpd jid f) (chatFieldsCre jid f))
      with hc | ⟨w1, hok, hc⟩ <;> rw [hc]
    exact prismaChatUpsert_ok_hasChat_other hok rfl h

theorem upsertChatFields_hasMessage (w : World) (jid : String) (f : ChatFields)
    (i : String) :
    (upsertChatFields w jid f).db.hasMessage i = w.db.hasMessage i := by
  unfold Db.hasMessage
  rw [upsertChatFields_messages]

theorem messageRowOf_id (m : MessageInfo) (now : Nat) :
    (messageRowOf m now).id = m.id := rfl

theorem messageRowOf_jid (m : MessageInfo) (now : Nat) :
    (messageRowOf m now).jid = m.fromJid := rfl

theorem prismaMessageUpsertIdem_dup {w : World} {row : MessageRow}
    (h : w.db.hasMessage row.id = true) :
    orUnchanged w (prismaMessageUpsertIdem w row) = w := by
  unfold prismaMessageUpsertIdem
  cases hf : w.failing
  · simp [h, orUnchanged]
  · simp [orUnchanged]

theorem prismaMessageUpsertIdem_fresh {w : World} {row : MessageRow}
    (hfail : w.failing = false) (hdup : w.db.hasMessage row.id = false)
    (hchat : w.db.hasChat row.jid = true) :
    orUnchanged w (prismaMessageUpsertIdem w row) =
      { w with db := { w.db with messages := w.db.messages ++ [row] } } := by
  unfold prismaMessageUpsertIdem
  simp [hfail, hdup, hchat, orUnchanged]

theorem prismaMessageUpsertIdem_fk {w : World} {row : MessageRow}
    (hdup : w.db.hasMessage row.id = false) (hchat : w.db.hasChat row.jid = false) :
    orUnchanged w (prismaMessageUpsertIdem w row) = w := by
  unfold prismaMessageUpsertIdem
  cases hf : w.failing <;> simp [hdup, hchat, orUnchanged]

theorem batchStep_eq (now : Nat) (w : World) (mk : MessageInfo × String) :
    saveMessagesBatchStep now w mk =
      orUnchanged (upsertChatFields w mk.1.fromJid (chatUpdateOfMessage mk.1))
        (prismaMessageUpsertIdem (upsertChatFields w mk.1.fromJid (chatUpdateOfMessage mk.1))
          (messageRowOf mk.1 now)) := rfl

theorem batchStep_of_failing {w : World} (now : Nat) (mk : MessageInfo × String)
    (h : w.failing = true) : saveMessagesBatchStep now w mk = w := by
  rw [batchStep_eq, upsertChatFields_of_failing _ _ h]
  unfold prismaMessageUpsertIdem
  rw [h]
  simp [orUnchanged]

theorem saveMessagesBatch_of_failing {w : World} (now : Nat)
    (msgs : List (MessageInfo × String)) (h : w.failing = true) :
    saveMessagesBatch w now msgs = w := by
  unfold saveMessagesBatch
  induction msgs with
  | nil => rfl
  | cons mk t ih =>
    rw [List.foldl_cons, batchStep_of_failing now mk h]
    exact ih

theorem saveMessagesBatch_singleton (w : World) (now : Nat) (mk : MessageInfo × String) :
    saveMessagesBatch w now [mk] = saveMessagesBatchStep now w mk := rfl

theorem batchStep_messages_dup {w : World} {now : Nat} {mk : MessageInfo × String}
    (h : w.db.hasMessage mk.1.id = true) :
    (saveMessagesBatchStep now w mk).db.messages = w.db.messages := by
  rw [batchStep_eq]
  rw [prismaMessageUpsertIdem_dup]
  · exact upsertChatFields_messages ..
  · rw [messageRowOf_id, upsertChatFields_hasMessage]
    exact h

theorem batchStep_messages_fresh {w : World} {now : Nat} {mk : MessageInfo × String}
    (hfail : w.failing = false) (hfrom : mk.1.fromJid ≠ "")
    (hdup : w.db.hasMessage mk.1.id = false) :
    (saveMessagesBatchStep now w mk).db.messages =
      w.db.messages ++ [messageRowOf mk.1 now] := by
  rw [batchStep_eq]
  rw [prismaMessageUpsertIdem_fresh]
  · simp [upsertChatFields_messages]
  · rw [upsertChatFields_failing]
    exact hfail
  · rw [messageRowOf_id, upsertChatFields_hasMessage]
    exact hdup
  · rw [messageRowOf_jid]
    exact upsertChatFields_hasChat_self _ hfail hfrom

theorem batchStep_messages_noFrom {w : World} {now : Nat} {mk : MessageInfo × String}
    (hfrom : mk.1.fromJid = "") (hdup : w.db.hasMessage mk.1.id = false)
    (hnochat : w.db.hasChat "" = false) :
    (saveMessagesBatchStep now w mk).db.messages = w.db.messages := by
  rw [batchStep_eq, hfrom, upsertChatFields_empty_jid]
  rw [prismaMessageUpsertIdem_fk]
  · rw [messageRowOf_id]
    exact hdup
  · rw [messageRowOf_jid, hfrom]
    exact hnochat

theorem prismaMessageUpsertIdem_chats (w : World) (row : MessageRow) :
    (orUnchanged w (prismaMessageUpsertIdem w row)).db.chats = w.db.chats := by
  unfold prismaMessageUpsertIdem
  cases hf : w.failing
  · by_cases hd : w.db.hasMessage row.id = true
    · simp [hd, orUnchanged]
    · by_cases hc : w.db.hasChat row.jid = true <;>
        simp [hd, hc, orUnchanged]
  · simp [orUnchanged]

theorem prismaMessageUpsertIdem_failing (w : World) (row : MessageRow) :
    (orUnchanged w (prismaMessageUpsertIdem w row)).failing = w.failing := by
  unfold prismaMessageUpsertIdem
  cases hf : w.failing
  · by_cases hd : w.db.hasMessage row.id = true
    · simp [hd, hf, orUnchanged]
    · by_cases hc : w.db.hasChat row.jid = true <;>
        simp [hd, hc, orUnchanged, hf]
  · simp [orUnchanged, hf]

theorem batchStep_failing (now : Nat) (w : World) (mk : MessageInfo × String) :
    (saveMessagesBatchStep now w mk).failing = w.failing := by
  rw [batchStep_eq, prismaMessageUpsertIdem_failing, upsertChatFields_failing]

theorem batchStep_hasChat_mono {w : World} {j : String} (now : Nat)
    (mk : MessageInfo × String) (h : w.db.hasChat j = true) :
    (saveMessagesBatchStep now w mk).db.hasChat j = true := by
  rw [batchStep_eq]
  show Db.hasChat _ _ = true
  unfold Db.hasChat
  rw [prismaMessageUpsertIdem_chats]
  exact upsertChatFields_hasChat_mono _ _ h

theorem batchStep_hasChat_other {w : World} {j : String} (now : Nat)
    (mk : MessageInfo × String) (h : j ≠ mk.1.fromJid) :
    (saveMessagesBatchStep now w mk).db.hasChat j = w.db.hasChat j := by
  rw [batchStep_eq]
  show Db.hasChat _ _ = _
  unfold Db.hasChat
  rw [prismaMessageUpsertIdem_chats]
  exact upsertChatFields_hasChat_other _ h

theorem countById_append (l1 l2 : List MessageRow) (i : String) :
    countById (l1 ++ l2) i = countById l1 i + countById l2 i := by
  unfold countById
  rw [List.filter_append, List.length_append]

theorem countById_singleton (r : MessageRow) (i : String) :
    countById [r] i = if r.id = i then 1 else 0 := by
  unfold countById
  by_cases h : r.id = i <;> simp [h]

theorem hasMessage_iff_countById_pos (db : Db) (i : String) :
    db.hasMessage i = true ↔ 0 < countById db.messages i := by
  unfold Db.hasMessage countById
  induction db.messages with
  | nil => simp
  | cons r t ih =>
    by_cases h : r.id = i <;>
      simp [List.any_cons, List.filter_cons, h, ih]

theorem hasMessage_eq_false_iff (db : Db) (i : String) :
    db.hasMessage i = false ↔ ∀ r ∈ db.messages, r.id ≠ i := by
  unfold Db.hasMessage
  simp

theorem rowById_none_iff (l : List MessageRow) (i : String) :
    rowById l i = none ↔ ∀ r ∈ l, r.id ≠ i := by
  unfold rowById
  rw [List.find?_eq_none]
  simp

theorem rowById_append (l1 l2 : List MessageRow) (i : String) :
    rowById (l1 ++ l2) i = (rowById l1 i).or (rowById l2 i) := List.find?_append

/-! ### Concrete sample data shared by the concrete theorems -/

/-- The message of the spec's single-message happy-path scenario. -/
def sampleMsg : MessageInfo :=
  ⟨"A1", "15551234567@s.whatsapp.net", false, 1700000000, "conversation",
   some "Bob", some "hi", false⟩

/-- A malformed message whose from field is empty. -/
def msgNoFrom : MessageInfo :=
  ⟨"B2", "", false, 1700000001, "conversation", none, some "yo", false⟩

/-- A store with empty tables and a healthy connection. -/
def emptyWorld : World := ⟨⟨[], []⟩, false⟩

/-! ### Claim C4: atomicity of saveMessagesBatch -/

/-- C4, counterexample: saveMessagesBatch is not atomic per batch.  On the
two-record batch whose second record has an empty from (its chat upsert is
skipped, so its message insert violates the foreign key and fails), the
first record's row is persisted and the second's is not — neither all nor
none of the batch is applied, and the state is changed although an error
occurred inside the batch. -/
theorem c4_saveMessagesBatch_not_atomic_cex :
    ((saveMessagesBatch emptyWorld 5 [(sampleMsg, "wa:A1"), (msgNoFrom, "wa:B2")]).db.messages.map
        (fun r => r.id) = ["A1"]) ∧
    (saveMessagesBatch emptyWorld 5 [(sampleMsg, "wa:A1"), (msgNoFrom, "wa:B2")]).db.hasMessage
        "B2" = false ∧
    emptyWorld.db.messages = [] := by decide

/-- C4, amended: saveMessagesBatch applies the records of a batch
independently (per record: chat upsert, then idempotent message insert),
with no enclosing transaction.  When one record of the batch fails to
persist (here: a record with an empty from, whose insert violates the
messages.jid foreign key), the other record's row is still written and
stays written, the failed record is absent, and the call resolves normally
— the state is not rolled back on error. -/
theorem c4_saveMessagesBatch_applies_records_independently
    (w : World) (m1 m2 : MessageInfo) (k1 k2 : String) (now : Nat)
    (hfail : w.failing = false) (hfrom1 : m1.fromJid ≠ "")
    (hdup1 : w.db.hasMessage m1.id = false)
    (hfrom2 : m2.fromJid = "") (hne : m2.id ≠ m1.id)
    (hdup2 : w.db.hasMessage m2.id = false)
    (hnochat : w.db.hasChat "" = false) :
    (saveMessagesBatch w now [(m1, k1), (m2, k2)]).db.messages =
      w.db.messages ++ [messageRowOf m1 now] ∧
    (saveMessagesBatch w now [(m1, k1), (m2, k2)]).db.hasMessage m2.id = false := by
  have hstep : saveMessagesBatch w now [(m1, k1), (m2, k2)] =
      saveMessagesBatchStep now (saveMessagesBatchStep now w (m1, k1)) (m2, k2) := rfl
  have h1 : (saveMessagesBatchStep now w (m1, k1)).db.messages =
      w.db.messages ++ [messageRowOf m1 now] :=
    batchStep_messages_fresh hfail hfrom1 hdup1
  have h2dup : (saveMessagesBatchStep now w (m1, k1)).db.hasMessage m2.id = false := by
    rw [hasMessage_eq_false_iff] at hdup2 ⊢
    rw [h1]
    intro r hr
    rcases List.mem_append.mp hr with hr | hr
    · exact hdup2 r hr
    · rcases List.mem_singleton.mp hr with rfl
      rw [messageRowOf_id]
      exact fun hc => hne hc.symm
  have h2chat : (saveMessagesBatchStep now w (m1, k1)).db.hasChat "" = false := by
    rw [batchStep_hasChat_other now (m1, k1) (fun hc => hfrom1 hc.symm)]
    exact hnochat
  have h2 : (saveMessagesBatchStep now (saveMessagesBatchStep now w (m1, k1)) (m2, k2)).db.messages =
      (saveMessagesBatchStep now w (m1, k1)).db.messages :=
    batchStep_messages_noFrom hfrom2 h2dup h2chat
  constructor
  · rw [hstep, h2, h1]
  · rw [hstep]
    rw [hasMessage_eq_false_iff] at h2dup ⊢
    rw [h2]
    exact h2dup

/-- C4, witness: the amended theorem applied to the concrete two-record
batch of the counterexample. -/
theorem c4_saveMessagesBatch_applies_records_independently_witness :
    (saveMessagesBatch emptyWorld 5 [(sampleMsg, "wa:A1"), (msgNoFrom, "wa:B2")]).db.messages =
      emptyWorld.db.messages ++ [messageRowOf sampleMsg 5] ∧
    (saveMessagesBatch emptyWorld 5 [(sampleMsg, "wa:A1"), (msgNoFrom, "wa:B2")]).db.hasMessage
        msgNoFrom.id = false :=
  c4_saveMessagesBatch_applies_records_independently emptyWorld sampleMsg msgNoFrom
    "wa:A1" "wa:B2" 5 rfl (by decide) (by decide) rfl (by decide) (by decide) (by decide)

/-! ### Producer and drain lemmas -/

theorem tryEnqueue_log (st : IngestState) (r : IngestRecord) :
    ((tryEnqueue st r).1).log = st.log := by
  unfold tryEnqueue
  split
  · rfl
  · split <;> rfl

theorem enqueueMessage_log_ok {m : MessageInfo} (st : IngestState) (now : Nat)
    (hid : m.id ≠ "") (hfrom : m.fromJid ≠ "") :
    ((enqueueMessage st m true now).1).log = st.log ++ [mkIngestRecord m now] := by
  unfold enqueueMessage
  rw [if_neg (by simp [hid, hfrom])]
  rw [if_neg (by simp)]
  cases h2 : (tryEnqueue
      { st with log := st.log ++ [mkIngestRecord m now], received := st.received + 1 }
      (mkIngestRecord m now)).2
  · simp only [h2, if_false, Bool.false_eq_true]
    rw [tryEnqueue_log]
  · simp only [h2, if_true]
    show ((tryEnqueue _ _).1).log = _
    rw [tryEnqueue_log]

theorem drainLog_nil (w : World) (now : Nat) : drainLog w now [] = w := rfl

theorem drainLog_cons (w : World) (now : Nat) (r : IngestRecord)
    (rest : List IngestRecord) :
    drainLog w now (r :: rest) =
      drainLog (saveMessagesBatch w now [(r.payload, r.idempotencyKey)]) now rest := rfl

theorem rowById_some_hasMessage {db : Db} {i : String} {row : MessageRow}
    (h : rowById db.messages i = some row) : db.hasMessage i = true := by
  unfold rowById at h
  have hmem := List.mem_of_find?_eq_some h
  have hp := List.find?_some h
  unfold Db.hasMessage
  rw [List.any_eq_true]
  exact ⟨row, hmem, hp⟩

theorem hasMessage_true_rowById_ne_none {db : Db} {i : String}
    (h : db.hasMessage i = true) : rowById db.messages i ≠ none := by
  intro hnone
  have hall := (rowById_none_iff db.messages i).mp hnone
  have hfalse := (hasMessage_eq_false_iff db i).mpr hall
  rw [h] at hfalse
  exact Bool.true_eq_false.mp hfalse

/-- An ingestion state with empty log and queue, default capacity. -/
def emptyIngest : IngestState := ⟨[], [], 5000, false, 0, 0, 0⟩

/-! ### Claim C5: duplicate deliveries are idempotent -/

/-- C5: enqueueMessage twice on the same message appends two records to the
durable log, yet after replay and worker drain the store holds exactly one
Message row with that id: the message upsert of saveMessagesBatch is a
no-op when the id already exists, so duplicate deliveries never create a
second row and never alter the existing row. -/
theorem c5_duplicate_enqueue_idempotent :
    (∀ (w : World) (st : IngestState) (m : MessageInfo) (now1 now2 nowp : Nat),
      m.id ≠ "" → m.fromJid ≠ "" → w.failing = false →
      countById w.db.messages m.id ≤ 1 →
      ((enqueueMessage ((enqueueMessage st m true now1).1) m true now2).1.log =
        st.log ++ [mkIngestRecord m now1, mkIngestRecord m now2]) ∧
      (countById (drainLog w nowp [mkIngestRecord m now1, mkIngestRecord m now2]).db.messages
          m.id = 1) ∧
      (rowById w.db.messages m.id = none →
        rowById (drainLog w nowp [mkIngestRecord m now1, mkIngestRecord m now2]).db.messages
            m.id = some (messageRowOf m nowp)) ∧
      (∀ row, rowById w.db.messages m.id = some row →
        rowById (drainLog w nowp [mkIngestRecord m now1, mkIngestRecord m now2]).db.messages
            m.id = some row)) ∧
    (∀ (w : World) (now : Nat) (m : MessageInfo) (k : String),
      w.db.hasMessage m.id = true →
      (saveMessagesBatch w now [(m, k)]).db.messages = w.db.messages) := by
  constructor
  · intro w st m now1 now2 nowp hid hfrom hfail hcount
    have hlog : (enqueueMessage ((enqueueMessage st m true now1).1) m true now2).1.log =
        st.log ++ [mkIngestRecord m now1, mkIngestRecord m now2] := by
      rw [enqueueMessage_log_ok _ now2 hid hfrom, enqueueMessage_log_ok st now1 hid hfrom]
      rw [List.append_assoc]
      rfl
    have hdrain : drainLog w nowp [mkIngestRecord m now1, mkIngestRecord m now2] =
        saveMessagesBatchStep nowp
          (saveMessagesBatchStep nowp w (m, computeIdempotencyKey m))
          (m, computeIdempotencyKey m) := rfl
    refine ⟨hlog, ?_⟩
    rw [hdrain]
    cases hw : w.db.hasMessage m.id
    · -- the id is fresh: the first drain step inserts the row, the second is a no-op
      have h1 : (saveMessagesBatchStep nowp w (m, computeIdempotencyKey m)).db.messages =
          w.db.messages ++ [messageRowOf m nowp] :=
        batchStep_messages_fresh hfail hfrom hw
      have hw1 : (saveMessagesBatchStep nowp w (m, computeIdempotencyKey m)).db.hasMessage
          m.id = true := by
        unfold Db.hasMessage
        rw [h1, List.any_append]
        simp [messageRowOf_id]
      have h2 : (saveMessagesBatchStep nowp
            (saveMessagesBatchStep nowp w (m, computeIdempotencyKey m))
            (m, computeIdempotencyKey m)).db.messages =
          (saveMessagesBatchStep nowp w (m, computeIdempotencyKey m)).db.messages :=
        batchStep_messages_dup hw1
      have hcount0 : countById w.db.messages m.id = 0 := by
        by_contra hne
        have hpos : 0 < countById w.db.messages m.id := Nat.pos_of_ne_zero hne
        have := (hasMessage_iff_countById_pos w.db m.id).mpr hpos
        rw [hw] at this
        exact Bool.false_eq_true.mp this
      have hnone : rowById w.db.messages m.id = none :=
        (rowById_none_iff w.db.messages m.id).mpr ((hasMessage_eq_false_iff w.db m.id).mp hw)
      refine ⟨?_, ?_, ?_⟩
      · rw [h2, h1, countById_append, hcount0, countById_singleton]
        simp [messageRowOf_id]
      · intro _
        rw [h2, h1, rowById_append, hnone]
        simp [rowById, List.find?, messageRowOf_id]
      · intro row hrow
        exact absurd hrow (by rw [hnone]; exact fun h => Option.noConfusion h)
    · -- the id already exists: both drain steps are no-ops on the messages table
      have h1 : (saveMessagesBatchStep nowp w (m, computeIdempotencyKey m)).db.messages =
          w.db.messages := batchStep_messages_dup hw
      have hw1 : (saveMessagesBatchStep nowp w (m, computeIdempotencyKey m)).db.hasMessage
          m.id = true := by
        unfold Db.hasMessage
        rw [h1]
        exact hw
      have h2 : (saveMessagesBatchStep nowp
            (saveMessagesBatchStep nowp w (m, computeIdempotencyKey m))
            (m, computeIdempotencyKey m)).db.messages =
          (saveMessagesBatchStep nowp w (m, computeIdempotencyKey m)).db.messages :=
        batchStep_messages_dup hw1
      have hpos : 0 < countById w.db.messages m.id :=
        (hasMessage_iff_countById_pos w.db m.id).mp hw
      refine ⟨?_, ?_, ?_⟩
      · rw [h2, h1]
        omega
      · intro hnone
        exact absurd hnone (hasMessage_true_rowById_ne_none hw)
      · intro row hrow
        rw [h2, h1]
        exact hrow
  · intro w now m k h
    rw [saveMessagesBatch_singleton]
    exact batchStep_messages_dup h

/-- C5, witness: the idempotence theorem applied to the concrete
happy-path message on the empty store and empty ingestion state. -/
theorem c5_duplicate_enqueue_idempotent_witness :
    ((enqueueMessage ((enqueueMessage emptyIngest sampleMsg true 1).1) sampleMsg true 2).1.log =
      emptyIngest.log ++ [mkIngestRecord sampleMsg 1, mkIngestRecord sampleMsg 2]) ∧
    (countById (drainLog emptyWorld 5
        [mkIngestRecord sampleMsg 1, mkIngestRecord sampleMsg 2]).db.messages "A1" = 1) := by
  have h := c5_duplicate_enqueue_idempotent.1 emptyWorld emptyIngest sampleMsg 1 2 5
    (by decide) (by decide) rfl (by decide)
  exact ⟨h.1, h.2.1⟩

/-! ### Chat-before-message invariant lemmas -/

theorem hasChat_congr {db1 db2 : Db} (h : db1.chats = db2.chats) (j : String) :
    db1.hasChat j = db2.hasChat j := by
  unfold Db.hasChat
  rw [h]

theorem orUnchanged_chatUpsert_messages (w : World) (jid : String) (u : ChatUpdate)
    (c : ChatRow) :
    (orUnchanged w (prismaChatUpsert w jid u c)).db.messages = w.db.messages := by
  rcases orUnchanged_cases w (prismaChatUpsert w jid u c) with h | ⟨w1, hok, h⟩ <;> rw [h]
  exact prismaChatUpsert_ok_messages hok

theorem orUnchanged_chatUpsert_hasChat_mono {w : World} {j : String} (jid : String)
    (u : ChatUpdate) (c : ChatRow) (h : w.db.hasChat j = true) :
    (orUnchanged w (prismaChatUpsert w jid u c)).db.hasChat j = true := by
  rcases orUnchanged_cases w (prismaChatUpsert w jid u c) with hc | ⟨w1, hok, hc⟩ <;> rw [hc]
  · exact h
  · exact prismaChatUpsert_ok_hasChat_mono hok h

theorem orUnchanged_messageUpsert_spec (w : World) (row : MessageRow) :
    (orUnchanged w (prismaMessageUpsertIdem w row)).db.messages = w.db.messages ∨
    ((orUnchanged w (prismaMessageUpsertIdem w row)).db.messages = w.db.messages ++ [row] ∧
      w.db.hasChat row.jid = true) := by
  unfold prismaMessageUpsertIdem
  cases hf : w.failing
  · by_cases hd : w.db.hasMessage row.id = true
    · left; simp [hd, orUnchanged]
    · by_cases hc : w.db.hasChat row.jid = true
      · right
        constructor
        · simp [hd, hc, orUnchanged]
        · exact hc
      · left; simp [hd, hc, orUnchanged]
  · left; simp [orUnchanged]

theorem prismaMessageCreate_chats (w : World) (row : MessageRow) :
    (orUnchanged w (prismaMessageCreate w row)).db.chats = w.db.chats := by
  unfold prismaMessageCreate
  cases hf : w.failing
  · by_cases hd : w.db.hasMessage row.id = true
    · simp [hd, orUnchanged]
    · by_cases hc : w.db.hasChat row.jid = true <;> simp [hd, hc, orUnchanged]
  · simp [orUnchanged]

theorem orUnchanged_messageCreate_spec (w : World) (row : MessageRow) :
    (orUnchanged w (prismaMessageCreate w row)).db.messages = w.db.messages ∨
    ((orUnchanged w (prismaMessageCreate w row)).db.messages = w.db.messages ++ [row] ∧
      w.db.hasChat row.jid = true) := by
  unfold prismaMessageCreate
  cases hf : w.failing
  · by_cases hd : w.db.hasMessage row.id = true
    · left; simp [hd, orUnchanged]
    · by_cases hc : w.db.hasChat row.jid = true
      · right
        constructor
        · simp [hd, hc, orUnchanged]
        · exact hc
      · left; simp [hd, hc, orUnchanged]
  · left; simp [orUnchanged]

theorem upsertChatFields_inv {w : World} (jid : String) (f : ChatFields)
    (h : ChatForEachMessage w.db) : ChatForEachMessage (upsertChatFields w jid f).db := by
  intro mr hmr
  rw [upsertChatFields_messages] at hmr
  exact upsertChatFields_hasChat_mono _ _ (h _ hmr)

theorem batchStep_inv {w : World} (now : Nat) (mk : MessageInfo × String)
    (h : ChatForEachMessage w.db) : ChatForEachMessage (saveMessagesBatchStep now w mk).db := by
  rw [batchStep_eq]
  have hw2 : ChatForEachMessage (upsertChatFields w mk.1.fromJid (chatUpdateOfMessage mk.1)).db :=
    upsertChatFields_inv _ _ h
  intro mr hmr
  have hchats := prismaMessageUpsertIdem_chats
    (upsertChatFields w mk.1.fromJid (chatUpdateOfMessage mk.1)) (messageRowOf mk.1 now)
  rw [hasChat_congr hchats]
  rcases orUnchanged_messageUpsert_spec
      (upsertChatFields w mk.1.fromJid (chatUpdateOfMessage mk.1)) (messageRowOf mk.1 now)
    with heq | ⟨heq, hchat⟩
  · rw [heq] at hmr
    exact hw2 _ hmr
  · rw [heq] at hmr
    rcases List.mem_append.mp hmr with hmr | hmr
    · exact hw2 _ hmr
    · rcases List.mem_singleton.mp hmr with rfl
      exact hchat

theorem saveMessage_inv {w : World} (now : Nat) (m : MessageInfo)
    (h : ChatForEachMessage w.db) : ChatForEachMessage (saveMessage w now m).db := by
  unfold saveMessage
  have hw1 : ChatForEachMessage (upsertChatFields w m.fromJid (chatUpdateOfMessage m)).db :=
    upsertChatFields_inv _ _ h
  intro mr hmr
  have hchats := prismaMessageCreate_chats
    (upsertChatFields w m.fromJid (chatUpdateOfMessage m)) (messageRowOf m now)
  rw [hasChat_congr hchats]
  rcases orUnchanged_messageCreate_spec
      (upsertChatFields w m.fromJid (chatUpdateOfMessage m)) (messageRowOf m now)
    with heq | ⟨heq, hchat⟩
  · rw [heq] at hmr
    exact hw1 _ hmr
  · rw [heq] at hmr
    rcases List.mem_append.mp hmr with hmr | hmr
    · exact hw1 _ hmr
    · rcases List.mem_singleton.mp hmr with rfl
      exact hchat

theorem upsertChatsStep_inv {w : World} (c : ChatIn)
    (h : ChatForEachMessage w.db) : ChatForEachMessage (upsertChatsStep w c).db := by
  unfold upsertChatsStep
  split
  · exact h
  · intro mr hmr
    rw [orUnchanged_chatUpsert_messages] at hmr
    exact orUnchanged_chatUpsert_hasChat_mono _ _ _ (h _ hmr)

theorem saveMessagesBatch_inv {w : World} (now : Nat)
    (msgs : List (MessageInfo × String)) (h : ChatForEachMessage w.db) :
    ChatForEachMessage (saveMessagesBatch w now msgs).db := by
  unfold saveMessagesBatch
  induction msgs generalizing w with
  | nil => exact h
  | cons mk t ih =>
    rw [List.foldl_cons]
    exact ih (batchStep_inv now mk h)

theorem upsertChats_fold_inv (chats : List ChatIn) :
    ∀ w : World, ChatForEachMessage w.db →
      ChatForEachMessage (chats.foldl upsertChatsStep w).db := by
  induction chats with
  | nil => exact fun w h => h
  | cons c t ih =>
    intro w h
    rw [List.foldl_cons]
    exact ih _ (upsertChatsStep_inv c h)

theorem upsertChats_inv {w : World} (chats : List ChatIn)
    (h : ChatForEachMessage w.db) : ChatForEachMessage (upsertChats w chats).db := by
  unfold upsertChats
  split
  · exact h
  · exact upsertChats_fold_inv chats w h

/-! ### Claim C9: a message row requires a chat row -/

/-- C9: for every jid and after every sequence of store persistence
operations (saveMessage, saveMessagesBatch, upsertChats and the single-chat
upsert), a Message row with jid j implies a Chat row with jid j: every
persistence path upserts the chat before inserting the message, and the
messages.jid foreign key guards the insert, so the invariant is preserved
by every operation. -/
theorem c9_message_row_implies_chat_row (ops : List StoreOp) (w : World)
    (h : ChatForEachMessage w.db) : ChatForEachMessage (applyOps w ops).db := by
  induction ops generalizing w with
  | nil => exact h
  | cons op t ih =>
    have hstep : ChatForEachMessage (applyOp w op).db := by
      cases op with
      | saveMsg now m => exact saveMessage_inv now m h
      | saveBatch now msgs => exact saveMessagesBatch_inv now msgs h
      | bulkChats chats => exact upsertChats_inv chats h
      | chatFields jid fields => exact upsertChatFields_inv jid fields h
    exact ih (applyOp w op) hstep

/-- C9, witness: the invariant holds after a concrete operation sequence on
the empty store. -/
theorem c9_message_row_implies_chat_row_witness :
    ChatForEachMessage (applyOps emptyWorld
      [StoreOp.saveBatch 5 [(sampleMsg, "wa:A1")], StoreOp.saveMsg 6 msgNoFrom]).db :=
  c9_message_row_implies_chat_row
    [StoreOp.saveBatch 5 [(sampleMsg, "wa:A1")], StoreOp.saveMsg 6 msgNoFrom]
    emptyWorld (by simp [ChatForEachMessage, emptyWorld])

/-! ### Claim C6: acceptance behaviour of enqueueMessage -/

/-- C6: enqueueMessage rejects with invalid_message exactly when the
message misses id or from (and then touches neither log nor queue nor
counters); for a valid message it rejects with log_append_failed exactly
when the durable-log append or fsync fails; in every other case it accepts
— the state of the in-memory queue (full or not) never causes a rejection,
and acceptance appends exactly one record to the durable log. -/
theorem c6_enqueueMessage_acceptance (st : IngestState) (m : MessageInfo)
    (appendOk : Bool) (now : Nat) :
    (((enqueueMessage st m appendOk now).2.accepted = false ∧
      (enqueueMessage st m appendOk now).2.reason = some "invalid_message") ↔
        (m.id = "" ∨ m.fromJid = "")) ∧
    ((m.id = "" ∨ m.fromJid = "") →
      enqueueMessage st m appendOk now = (st, ⟨false, some "invalid_message", "", ""⟩)) ∧
    (m.id ≠ "" → m.fromJid ≠ "" →
      (((enqueueMessage st m appendOk now).2.accepted = false ∧
        (enqueueMessage st m appendOk now).2.reason = some "log_append_failed") ↔
          appendOk = false)) ∧
    (m.id ≠ "" → m.fromJid ≠ "" → appendOk = true →
      (enqueueMessage st m appendOk now).2.accepted = true ∧
      (enqueueMessage st m appendOk now).1.log = st.log ++ [mkIngestRecord m now]) := by
  by_cases hv : m.id = "" ∨ m.fromJid = ""
  · have hres : enqueueMessage st m appendOk now =
        (st, ⟨false, some "invalid_message", "", ""⟩) := by
      unfold enqueueMessage
      rw [if_pos hv]
    refine ⟨?_, fun _ => hres, ?_, ?_⟩
    · rw [hres]
      exact iff_of_true ⟨rfl, rfl⟩ hv
    · intro hid hfrom
      exact absurd hv (by simp [hid, hfrom])
    · intro hid hfrom _
      exact absurd hv (by simp [hid, hfrom])
  · have hid : m.id ≠ "" := fun h => hv (Or.inl h)
    have hfrom : m.fromJid ≠ "" := fun h => hv (Or.inr h)
    cases appendOk
    · have hres : enqueueMessage st m false now =
          ({ st with logAppendFailedCount := st.logAppendFailedCount + 1 },
           ⟨false, some "log_append_failed", computeIdempotencyKey m,
            computeCorrelationId m⟩) := by
        unfold enqueueMessage
        rw [if_neg hv, if_pos rfl]
        rfl
      rw [hres]
      refine ⟨?_, fun h => absurd h hv, ?_, ?_⟩
      · exact iff_of_false (fun ⟨_, hr⟩ => absurd (Option.some.inj hr) (by decide))
          (fun h => hv h)
      · intro _ _
        exact iff_of_true ⟨rfl, rfl⟩ rfl
      · intro _ _ h
        exact Bool.noConfusion h
    · have hacc : (enqueueMessage st m true now).2 =
          ⟨true, none, computeIdempotencyKey m, computeCorrelationId m⟩ := by
        unfold enqueueMessage
        rw [if_neg hv, if_neg (by decide)]
        rfl
      rw [hacc]
      refine ⟨?_, fun h => absurd h hv, ?_, ?_⟩
      · exact iff_of_false (fun hp => Bool.noConfusion hp.1) (fun h => hv h)
      · intro _ _
        exact iff_of_false (fun hp => Bool.noConfusion hp.1) (fun h => Bool.noConfusion h)
      · intro _ _ _
        exact ⟨rfl, enqueueMessage_log_ok st now hid hfrom⟩

/-- C6, witness: a concrete valid message on an empty ingestion state with
a healthy log is accepted and appended. -/
theorem c6_enqueueMessage_acceptance_witness :
    (enqueueMessage emptyIngest sampleMsg true 0).2.accepted = true ∧
    (enqueueMessage emptyIngest sampleMsg true 0).1.log =
      emptyIngest.log ++ [mkIngestRecord sampleMsg 0] :=
  (c6_enqueueMessage_acceptance emptyIngest sampleMsg true 0).2.2.2
    (by decide) (by decide) rfl

/-! ### Claim C1: exclusion filtering in the webhook dispatcher -/

/-- An active webhook of tenant alice. -/
def aliceHook : Webhook := ⟨"wh1", "https://example.com/hook", some "main", "s3cret", true⟩

/-- An environment in which alice has one active webhook and the E.164
number +15551234567 in her exclusion set. -/
def aliceEnv : NotifyEnv :=
  ⟨fun u => if u = "alice" then [aliceHook] else [],
   fun u => if u = "alice" then ["+15551234567"] else []⟩

/-- C1: the current TenantManager.notifyWebhook performs no exclusion
filtering.  With the sender JID 15551234567@s.whatsapp.net — whose derived
E.164 number +15551234567 is in alice's exclusion set — a
message.received event is still POSTed to alice's active webhook, contrary
to the claim that delivery is skipped. -/
theorem c1_notifyWebhook_posts_to_excluded_sender :
    extractPhoneNumber "15551234567@s.whatsapp.net" = some "+15551234567" ∧
    "+15551234567" ∈ aliceEnv.excludedNumbers "alice" ∧
    notifyWebhook aliceEnv "alice" "message.received"
        ⟨some "15551234567@s.whatsapp.net"⟩ =
      [⟨"https://example.com/hook", "message.received", "alice", "wh1", "main"⟩] := by
  refine ⟨by decide, by decide, ?_⟩
  decide

/-! ### Claim C3: partial tail lines in the replay loop -/

/-- A parser accepting only the complete record line of the C3 scenario. -/
def c3ParseStrict : List Char → Option Nat :=
  fun l => if l = "rec1".data then some 1 else none

/-- A parser that also accepts the partial tail fragment (a torn record
whose prefix happens to parse). -/
def c3ParseLoose : List Char → Option Nat :=
  fun l => if l = "rec1".data then some 1 else if l = "ju".data then some 2 else none

/-- C3: the replay loop consumes a partial tail line.  On the 9-byte file
rec1 LF ju — whose final line ju is an unterminated partial record starting
at offset 5 — readline emits the fragment as a line and the loop treats it
as a record: with a parser that rejects the fragment, the loop counts a
replay_parse_error and advances and checkpoints the offset to 8 (past the
fragment's start at 5, and even past the 7-byte end of file, because the
loop adds a phantom LF to the line's byte length); with a parser the
fragment happens to satisfy, the fragment is even enqueued.  The claim that
the partial tail is neither enqueued nor checkpointed past is violated
either way. -/
theorem c3_replay_consumes_partial_tail :
    ("rec1\nju".data.length = 7) ∧
    readlineSplit "rec1\nju".data = ["rec1".data, "ju".data] ∧
    replayPass c3ParseStrict "rec1\nju".data 0 0 =
      ⟨8, 8, [1], 1, 1⟩ ∧
    (replayPass c3ParseLoose "rec1\nju".data 0 0).enqueued = [1, 2] := by
  refine ⟨by decide, by decide, ?_, by decide⟩
  decide

/-! ### Claim C10: the worker pool never sees a PrismaStore failure -/

theorem persistOnce_prisma (now : Nat) (s : World) (records : List IngestRecord) :
    persistOnce (prismaIface now) s records =
      (saveMessagesBatch s now (records.map (fun r => (r.payload, r.idempotencyKey))), none) :=
  rfl

theorem splitOnFailure_prisma (now : Nat) (cfg : RetryCfg) (jit ageAt : Nat → Nat)
    (st : WorkerState World) (records : List IngestRecord) (depth : Nat) :
    persistBatchSplitOnFailure (prismaIface now) cfg jit ageAt st records depth =
      (if records.length = 0 then st
       else { st with
          store := saveMessagesBatch st.store now
            (records.map (fun r => (r.payload, r.idempotencyKey))) }) := by
  rw [persistBatchSplitOnFailure]
  split
  · rfl
  · rfl

/-- C10: every PrismaStore persistence method catches its own errors and
resolves normally, so persistOnce in the worker pool never observes a store
failure: for any batch, the retry, batch-split and dead-letter branches are
unreachable, the retried and deadLettered counters and the DLQ stay as they
were, and the persisted counter advances by the full batch length even when
the underlying store connection is down and nothing was actually written
(store failing: the database is unchanged). -/
theorem c10_prisma_store_swallows_failures (now : Nat) (cfg : RetryCfg)
    (jit ageAt : Nat → Nat) (st : WorkerState World) (records : List IngestRecord) :
    (persistBatchWithRetry (prismaIface now) cfg jit ageAt st records).retried =
      st.retried ∧
    (persistBatchWithRetry (prismaIface now) cfg jit ageAt st records).deadLettered =
      st.deadLettered ∧
    (persistBatchWithRetry (prismaIface now) cfg jit ageAt st records).dlq = st.dlq ∧
    (persistBatchWithRetry (prismaIface now) cfg jit ageAt st records).exits = st.exits ∧
    (persistBatchWithRetry (prismaIface now) cfg jit ageAt st records).latencySamples =
      st.latencySamples + 1 ∧
    (persistBatchWithRetry (prismaIface now) cfg jit ageAt st records).persisted =
      st.persisted + records.length ∧
    (st.store.failing = true →
      (persistBatchWithRetry (prismaIface now) cfg jit ageAt st records).store.db =
        st.store.db) := by
  unfold persistBatchWithRetry
  rw [splitOnFailure_prisma]
  by_cases h : records.length = 0
  · rw [if_pos h]
    refine ⟨rfl, rfl, rfl, rfl, rfl, rfl, fun _ => rfl⟩
  · rw [if_neg h]
    refine ⟨rfl, rfl, rfl, rfl, rfl, rfl, fun hfail => ?_⟩
    show (saveMessagesBatch st.store now _).db = st.store.db
    rw [saveMessagesBatch_of_failing _ _ hfail]

/-- C10, witness: a one-record batch against a store whose connection is
down: the persisted counter advances, nothing is retried or dead-lettered,
and the database is untouched. -/
theorem c10_prisma_store_swallows_failures_witness :
    (persistBatchWithRetry (prismaIface 5) defaultRetryCfg (fun _ => 0) (fun _ => 0)
      ⟨⟨⟨[], []⟩, true⟩, 0, 0, 0, 0, [], 0, []⟩ [mkIngestRecord sampleMsg 0]).persisted = 1 ∧
    (persistBatchWithRetry (prismaIface 5) defaultRetryCfg (fun _ => 0) (fun _ => 0)
      ⟨⟨⟨[], []⟩, true⟩, 0, 0, 0, 0, [], 0, []⟩ [mkIngestRecord sampleMsg 0]).retried = 0 ∧
    (persistBatchWithRetry (prismaIface 5) defaultRetryCfg (fun _ => 0) (fun _ => 0)
      ⟨⟨⟨[], []⟩, true⟩, 0, 0, 0, 0, [], 0, []⟩ [mkIngestRecord sampleMsg 0]).store.db =
      (⟨[], []⟩ : Db) := by
  have h := c10_prisma_store_swallows_failures 5 defaultRetryCfg (fun _ => 0) (fun _ => 0)
    ⟨⟨⟨[], []⟩, true⟩, 0, 0, 0, 0, [], 0, []⟩ [mkIngestRecord sampleMsg 0]
  exact ⟨h.2.2.2.2.2.1, h.1, h.2.2.2.2.2.2 rfl⟩

/-! ### Claim C2: a batch with one poison record -/

theorem persistEach_append (iface : StoreIface σ) (cfg : RetryCfg) (jit ageAt : Nat → Nat)
    (st : WorkerState σ) (a b : List IngestRecord) :
    persistEachWithRetryOrDlq iface cfg jit ageAt st (a ++ b) =
      persistEachWithRetryOrDlq iface cfg jit ageAt
        (persistEachWithRetryOrDlq iface cfg jit ageAt st a) b := by
  unfold persistEachWithRetryOrDlq
  exact List.foldl_append ..

theorem persistEach_cons (iface : StoreIface σ) (cfg : RetryCfg) (jit ageAt : Nat → Nat)
    (st : WorkerState σ) (r : IngestRecord) (t : List IngestRecord) :
    persistEachWithRetryOrDlq iface cfg jit ageAt st (r :: t) =
      persistEachWithRetryOrDlq iface cfg jit ageAt
        (persistRecordLoop iface cfg jit ageAt r st 0) t := rfl

theorem poison_clean_step {badId errMsg : String} (cfg : RetryCfg) (jit ageAt : Nat → Nat)
    {r : IngestRecord} (hr : r.payload.id ≠ badId) (st : WorkerState (List String)) :
    persistRecordLoop (poisonIface badId errMsg) cfg jit ageAt r st 0 =
      { st with store := st.store ++ [r.payload.id],
                exits := st.exits ++ [ExitReason.success] } := by
  rw [persistRecordLoop]
  have hb : (r.payload.id == badId) = false := beq_false_of_ne hr
  simp [persistOnce, poisonIface, hb]

theorem poison_clean_fold {badId errMsg : String} (cfg : RetryCfg) (jit ageAt : Nat → Nat)
    (l : List IngestRecord) (hl : ∀ r ∈ l, r.payload.id ≠ badId) :
    ∀ st : WorkerState (List String),
      persistEachWithRetryOrDlq (poisonIface badId errMsg) cfg jit ageAt st l =
        { st with store := st.store ++ l.map (fun r => r.payload.id),
                  exits := st.exits ++ l.map (fun _ => ExitReason.success) } := by
  induction l with
  | nil =>
    intro st
    show st = _
    simp
  | cons r t ih =>
    intro st
    rw [persistEach_cons,
      poison_clean_step cfg jit ageAt (hl r (List.mem_cons_self r t)) st,
      ih (fun x hx => hl x (List.mem_cons_of_mem _ hx))]
    simp

theorem poison_bad_step {badId errMsg : String} (cfg : RetryCfg) (jit ageAt : Nat → Nat)
    {k : IngestRecord} (hk : k.payload.id = badId)
    (hnt : isTransientError errMsg = false) (st : WorkerState (List String)) :
    persistRecordLoop (poisonIface badId errMsg) cfg jit ageAt k st 0 =
      { st with retried := st.retried + 1, deadLettered := st.deadLettered + 1,
                dlq := st.dlq ++ [(k, errMsg)],
                exits := st.exits ++ [ExitReason.dlqNonTransient] } := by
  rw [persistRecordLoop]
  have hb : (k.payload.id == badId) = true := by
    rw [hk]
    exact beq_self_eq_true badId
  simp [persistOnce, poisonIface, hb, hnt, writeToDlq]

theorem poison_batch_run (badId errMsg : String) (cfg : RetryCfg) (jit ageAt : Nat → Nat)
    (l1 l2 : List IngestRecord) (k : IngestRecord) (st : WorkerState (List String))
    (hk : k.payload.id = badId)
    (hl1 : ∀ r ∈ l1, r.payload.id ≠ badId) (hl2 : ∀ r ∈ l2, r.payload.id ≠ badId)
    (hnt : isTransientError errMsg = false) :
    persistBatchWithRetry (poisonIface badId errMsg) cfg jit ageAt st (l1 ++ k :: l2) =
      { store := st.store ++ l1.map (fun r => r.payload.id) ++ l2.map (fun r => r.payload.id),
        persisted := st.persisted + (l1 ++ k :: l2).length,
        retried := st.retried + 1,
        deadLettered := st.deadLettered + 1,
        latencySamples := st.latencySamples + 1,
        dlq := st.dlq ++ [(k, errMsg)],
        sumWait := st.sumWait,
        exits := st.exits ++ l1.map (fun _ => ExitReason.success) ++
          [ExitReason.dlqNonTransient] ++ l2.map (fun _ => ExitReason.success) } := by
  have hpo : persistOnce (poisonIface badId errMsg) st.store (l1 ++ k :: l2) =
      (st.store, some ⟨errMsg⟩) := by
    simp [persistOnce, poisonIface, hk]
  have hsplit : persistBatchSplitOnFailure (poisonIface badId errMsg) cfg jit ageAt st
      (l1 ++ k :: l2) 0 =
      persistEachWithRetryOrDlq (poisonIface badId errMsg) cfg jit ageAt st
        (l1 ++ k :: l2) := by
    rw [persistBatchSplitOnFailure, hpo]
    rw [dif_neg (by simp)]
    split
    · rename_i s1 heq
      exact absurd heq (by simp)
    · rename_i s1 e heq
      injection heq with h1 h2
      injection h2 with h2
      subst h1
      subst h2
      dsimp only
      rw [dif_pos (Or.inl hnt)]
  unfold persistBatchWithRetry
  rw [hsplit, persistEach_append, persistEach_cons,
    poison_clean_fold cfg jit ageAt l1 hl1 st,
    poison_bad_step cfg jit ageAt hk hnt,
    poison_clean_fold cfg jit ageAt l2 hl2]

/-- The poison record of the C2 scenario. -/
def poisonMsg : MessageInfo := { sampleMsg with id := "P" }

/-- C2, counterexample: in the two-record batch where the second record
always fails with the non-transient store error, the other record is
persisted and the poison record is dead-lettered once, but the persisted
counter advances by the full batch length 2, not by N−1 = 1 as the claim
states — persistBatchWithRetry increments it by records.length whenever the
split/DLQ path completes, dead-lettered records included. -/
theorem c2_persisted_counter_counts_dead_lettered_cex :
    ((persistBatchWithRetry (poisonIface "P" "constraint violation") defaultRetryCfg
        (fun _ => 0) (fun _ => 0) ⟨[], 0, 0, 0, 0, [], 0, []⟩
        [mkIngestRecord sampleMsg 0, mkIngestRecord poisonMsg 0]).store = ["A1"]) ∧
    ((persistBatchWithRetry (poisonIface "P" "constraint violation") defaultRetryCfg
        (fun _ => 0) (fun _ => 0) ⟨[], 0, 0, 0, 0, [], 0, []⟩
        [mkIngestRecord sampleMsg 0, mkIngestRecord poisonMsg 0]).dlq =
      [(mkIngestRecord poisonMsg 0, "constraint violation")]) ∧
    ((persistBatchWithRetry (poisonIface "P" "constraint violation") defaultRetryCfg
        (fun _ => 0) (fun _ => 0) ⟨[], 0, 0, 0, 0, [], 0, []⟩
        [mkIngestRecord sampleMsg 0, mkIngestRecord poisonMsg 0]).persisted = 2) ∧
    ¬((persistBatchWithRetry (poisonIface "P" "constraint violation") defaultRetryCfg
        (fun _ => 0) (fun _ => 0) ⟨[], 0, 0, 0, 0, [], 0, []⟩
        [mkIngestRecord sampleMsg 0, mkIngestRecord poisonMsg 0]).persisted = 0 + 1) := by
  have h := poison_batch_run "P" "constraint violation" defaultRetryCfg
    (fun _ => 0) (fun _ => 0) [mkIngestRecord sampleMsg 0] []
    (mkIngestRecord poisonMsg 0) ⟨[], 0, 0, 0, 0, [], 0, []⟩
    rfl (by decide) (by simp) (by decide)
  rw [show [mkIngestRecord sampleMsg 0, mkIngestRecord poisonMsg 0] =
    [mkIngestRecord sampleMsg 0] ++ mkIngestRecord poisonMsg 0 :: [] from rfl, h]
  refine ⟨rfl, rfl, rfl, by decide⟩

/-- C2, amended: for a batch of N records of which exactly one record k
always fails with a non-transient store error and the others succeed, after
persistBatchWithRetry completes the N−1 other records are persisted, record
k is appended exactly once to the dead-letter log together with its error
string — but the persisted counter advances by N (the full batch length,
dead-lettered record included), not by N−1. -/
theorem c2_batch_with_one_poison_record (badId errMsg : String) (cfg : RetryCfg)
    (jit ageAt : Nat → Nat) (l1 l2 : List IngestRecord) (k : IngestRecord)
    (st : WorkerState (List String)) (hk : k.payload.id = badId)
    (hl1 : ∀ r ∈ l1, r.payload.id ≠ badId) (hl2 : ∀ r ∈ l2, r.payload.id ≠ badId)
    (hnt : isTransientError errMsg = false) :
    ((persistBatchWithRetry (poisonIface badId errMsg) cfg jit ageAt st
        (l1 ++ k :: l2)).store =
      st.store ++ l1.map (fun r => r.payload.id) ++ l2.map (fun r => r.payload.id)) ∧
    ((persistBatchWithRetry (poisonIface badId errMsg) cfg jit ageAt st
        (l1 ++ k :: l2)).dlq = st.dlq ++ [(k, errMsg)]) ∧
    ((persistBatchWithRetry (poisonIface badId errMsg) cfg jit ageAt st
        (l1 ++ k :: l2)).deadLettered = st.deadLettered + 1) ∧
    ((persistBatchWithRetry (poisonIface badId errMsg) cfg jit ageAt st
        (l1 ++ k :: l2)).persisted = st.persisted + (l1 ++ k :: l2).length) := by
  rw [poison_batch_run badId errMsg cfg jit ageAt l1 l2 k st hk hl1 hl2 hnt]
  exact ⟨rfl, rfl, rfl, rfl⟩

/-- C2, witness: the amended theorem applied to a concrete ten-record batch
whose fourth record is the poison record. -/
theorem c2_batch_with_one_poison_record_witness :
    ((persistBatchWithRetry (poisonIface "P" "constraint violation") defaultRetryCfg
        (fun _ => 0) (fun _ => 0) ⟨[], 0, 0, 0, 0, [], 0, []⟩
        ((List.range 3).map (fun i => mkIngestRecord { sampleMsg with id := toString i } 0) ++
          mkIngestRecord poisonMsg 0 ::
          (List.range 6).map (fun i => mkIngestRecord { sampleMsg with id := toString (i + 4) } 0))).dlq =
      [(mkIngestRecord poisonMsg 0, "constraint violation")]) ∧
    ((persistBatchWithRetry (poisonIface "P" "constraint violation") defaultRetryCfg
        (fun _ => 0) (fun _ => 0) ⟨[], 0, 0, 0, 0, [], 0, []⟩
        ((List.range 3).map (fun i => mkIngestRecord { sampleMsg with id := toString i } 0) ++
          mkIngestRecord poisonMsg 0 ::
          (List.range 6).map (fun i => mkIngestRecord { sampleMsg with id := toString (i + 4) } 0))).persisted = 10) := by
  have h := c2_batch_with_one_poison_record "P" "constraint violation" defaultRetryCfg
    (fun _ => 0) (fun _ => 0)
    ((List.range 3).map (fun i => mkIngestRecord { sampleMsg with id := toString i } 0))
    ((List.range 6).map (fun i => mkIngestRecord { sampleMsg with id := toString (i + 4) } 0))
    (mkIngestRecord poisonMsg 0) ⟨[], 0, 0, 0, 0, [], 0, []⟩
    rfl (by decide) (by decide) (by decide)
  exact ⟨h.2.1, by rw [h.2.2.2]; rfl⟩

/-! ### Claim C7: jittered backoff and retry-loop exits -/

theorem persistRecordLoop_exit {σ : Type} (iface : StoreIface σ) (cfg : RetryCfg)
    (jit ageAt : Nat → Nat) (r : IngestRecord) :
    ∀ (st : WorkerState σ) (attempt : Nat),
      ∃ reason : ExitReason,
        (persistRecordLoop iface cfg jit ageAt r st attempt).exits =
          st.exits ++ [reason] ∧
        (reason = ExitReason.success →
          (persistRecordLoop iface cfg jit ageAt r st attempt).dlq = st.dlq) ∧
        (reason ≠ ExitReason.success →
          ∃ emsg, (persistRecordLoop iface cfg jit ageAt r st attempt).dlq =
            st.dlq ++ [(r, emsg)]) := by
  suffices h : ∀ (fuel : Nat) (st : WorkerState σ) (attempt : Nat),
      cfg.maxAttempts + 1 - attempt ≤ fuel →
      ∃ reason : ExitReason,
        (persistRecordLoop iface cfg jit ageAt r st attempt).exits =
          st.exits ++ [reason] ∧
        (reason = ExitReason.success →
          (persistRecordLoop iface cfg jit ageAt r st attempt).dlq = st.dlq) ∧
        (reason ≠ ExitReason.success →
          ∃ emsg, (persistRecordLoop iface cfg jit ageAt r st attempt).dlq =
            st.dlq ++ [(r, emsg)]) by
    exact fun st attempt => h (cfg.maxAttempts + 1 - attempt) st attempt le_rfl
  intro fuel
  induction fuel with
  | zero =>
    intro st attempt hle
    rw [persistRecordLoop]
    split
    · exact ⟨ExitReason.success, rfl, fun _ => rfl, fun hne => absurd rfl hne⟩
    · rename_i s1 e heq
      have h2 : cfg.maxAttempts ≤ attempt := by omega
      rw [dif_pos (Or.inr (Or.inl h2))]
      by_cases h1 : isTransientError e.message = false
      · exact ⟨ExitReason.dlqNonTransient, by simp [h1, writeToDlq],
          fun hc => ExitReason.noConfusion hc,
          fun _ => ⟨e.message, by simp [writeToDlq]⟩⟩
      · exact ⟨ExitReason.dlqAttemptsExhausted, by simp [h1, h2, writeToDlq],
          fun hc => ExitReason.noConfusion hc,
          fun _ => ⟨e.message, by simp [writeToDlq]⟩⟩
  | succ f ih =>
    intro st attempt hle
    rw [persistRecordLoop]
    split
    · exact ⟨ExitReason.success, rfl, fun _ => rfl, fun hne => absurd rfl hne⟩
    · rename_i s1 e heq
      by_cases hc : isTransientError e.message = false ∨ cfg.maxAttempts ≤ attempt ∨
          cfg.maxHorizonMs ≤ ageAt attempt
      · rw [dif_pos hc]
        by_cases h1 : isTransientError e.message = false
        · exact ⟨ExitReason.dlqNonTransient, by simp [h1, writeToDlq],
            fun hc' => ExitReason.noConfusion hc',
            fun _ => ⟨e.message, by simp [writeToDlq]⟩⟩
        · by_cases h2 : cfg.maxAttempts ≤ attempt
          · exact ⟨ExitReason.dlqAttemptsExhausted, by simp [h1, h2, writeToDlq],
              fun hc' => ExitReason.noConfusion hc',
              fun _ => ⟨e.message, by simp [writeToDlq]⟩⟩
          · exact ⟨ExitReason.dlqHorizonExhausted, by simp [h1, h2, writeToDlq],
              fun hc' => ExitReason.noConfusion hc',
              fun _ => ⟨e.message, by simp [writeToDlq]⟩⟩
      · rw [dif_neg hc]
        have hlt : attempt < cfg.maxAttempts := by
          rcases Nat.lt_or_ge attempt cfg.maxAttempts with h | h
          · exact h
          · exact absurd (Or.inr (Or.inl h)) hc
        exact ih _ (attempt + 1) (by omega)

theorem flaky_step (jit ageAt : Nat → Nat) (r : IngestRecord) (n : Nat)
    (hn : n < 3) (hage : ageAt n < 600000)
    (ids0 : List String) (p rt dl ls sw : Nat)
    (dlqv : List (IngestRecord × String)) (ex : List ExitReason) :
    persistRecordLoop (flakyIface 3 "database is locked") defaultRetryCfg jit ageAt r
        ⟨(n, ids0), p, rt, dl, ls, dlqv, sw, ex⟩ n =
      persistRecordLoop (flakyIface 3 "database is locked") defaultRetryCfg jit ageAt r
        ⟨(n + 1, ids0), p, rt + 1, dl, ls, dlqv,
          sw + (min 5000 (100 * 2 ^ n) + jit n), ex⟩ (n + 1) := by
  have htr : isTransientError "database is locked" = true := by decide
  have h2 : ¬(10 ≤ n) := by omega
  have h3 : ¬(600000 ≤ ageAt n) := by omega
  rw [persistRecordLoop]
  simp [persistOnce, flakyIface, hn, htr, h2, h3, jitteredBackoff, defaultRetryCfg]

theorem flaky_done (jit ageAt : Nat → Nat) (r : IngestRecord) (attempt : Nat)
    (ids0 : List String) (p rt dl ls sw : Nat)
    (dlqv : List (IngestRecord × String)) (ex : List ExitReason) :
    persistRecordLoop (flakyIface 3 "database is locked") defaultRetryCfg jit ageAt r
        ⟨(3, ids0), p, rt, dl, ls, dlqv, sw, ex⟩ attempt =
      ⟨(4, ids0 ++ [r.payload.id]), p, rt, dl, ls, dlqv, sw,
        ex ++ [ExitReason.success]⟩ := by
  rw [persistRecordLoop]
  simp [persistOnce, flakyIface]

theorem flaky_run (jit ageAt : Nat → Nat) (r : IngestRecord)
    (ids0 : List String) (p rt dl ls sw : Nat)
    (dlqv : List (IngestRecord × String)) (ex : List ExitReason)
    (hage : ∀ n, ageAt n < 600000) :
    persistRecordLoop (flakyIface 3 "database is locked") defaultRetryCfg jit ageAt r
        ⟨(0, ids0), p, rt, dl, ls, dlqv, sw, ex⟩ 0 =
      ⟨(4, ids0 ++ [r.payload.id]), p, rt + 3, dl, ls, dlqv,
        sw + (100 + jit 0) + (200 + jit 1) + (400 + jit 2),
        ex ++ [ExitReason.success]⟩ := by
  rw [flaky_step jit ageAt r 0 (by omega) (hage 0),
    flaky_step jit ageAt r 1 (by omega) (hage 1),
    flaky_step jit ageAt r 2 (by omega) (hage 2),
    flaky_done]
  norm_num

/-- C7: (i) the wait before retry n equals min(maxMs, baseMs·2^n) plus the
drawn jitter, and whenever the jitter satisfies the Math.random bound
(jitter < 0.2·exp, i.e. 5·jitter < exp) the wait lies in
[exp, 1.2·exp); (ii) a record that fails transiently (database is locked)
on its first three attempts and succeeds on the fourth accumulates waits
(100+j0)+(200+j1)+(400+j2), hence at least 700 ms in total, is not
dead-lettered and exits with success while the retried counter advances by
3; (iii) for every store, configuration and record the retry loop ends, and
only with one of the four exits — success, non-transient error, attempts
exhausted, or horizon exhausted — the latter three writing the record to
the DLQ exactly once. -/
theorem c7_retry_backoff_and_exit_conditions :
    (∀ n base maxMs j : Nat,
      jitteredBackoff n base maxMs j = min maxMs (base * 2 ^ n) + j ∧
      (5 * j < min maxMs (base * 2 ^ n) →
        min maxMs (base * 2 ^ n) ≤ jitteredBackoff n base maxMs j ∧
        5 * (jitteredBackoff n base maxMs j - min maxMs (base * 2 ^ n)) <
          min maxMs (base * 2 ^ n))) ∧
    (∀ (jit ageAt : Nat → Nat) (r : IngestRecord) (ids0 : List String)
      (p rt dl ls sw : Nat) (dlqv : List (IngestRecord × String)) (ex : List ExitReason),
      (∀ n, ageAt n < 600000) →
      (persistRecordLoop (flakyIface 3 "database is locked") defaultRetryCfg jit ageAt r
          ⟨(0, ids0), p, rt, dl, ls, dlqv, sw, ex⟩ 0).retried = rt + 3 ∧
      (persistRecordLoop (flakyIface 3 "database is locked") defaultRetryCfg jit ageAt r
          ⟨(0, ids0), p, rt, dl, ls, dlqv, sw, ex⟩ 0).sumWait =
        sw + (100 + jit 0) + (200 + jit 1) + (400 + jit 2) ∧
      sw + 700 ≤ (persistRecordLoop (flakyIface 3 "database is locked") defaultRetryCfg
          jit ageAt r ⟨(0, ids0), p, rt, dl, ls, dlqv, sw, ex⟩ 0).sumWait ∧
      (persistRecordLoop (flakyIface 3 "database is locked") defaultRetryCfg jit ageAt r
          ⟨(0, ids0), p, rt, dl, ls, dlqv, sw, ex⟩ 0).dlq = dlqv ∧
      (persistRecordLoop (flakyIface 3 "database is locked") defaultRetryCfg jit ageAt r
          ⟨(0, ids0), p, rt, dl, ls, dlqv, sw, ex⟩ 0).exits =
        ex ++ [ExitReason.success]) ∧
    (∀ (σ : Type) (iface : StoreIface σ) (cfg : RetryCfg) (jit ageAt : Nat → Nat)
      (r : IngestRecord) (st : WorkerState σ) (attempt : Nat),
      ∃ reason : ExitReason,
        (persistRecordLoop iface cfg jit ageAt r st attempt).exits =
          st.exits ++ [reason] ∧
        (reason = ExitReason.success →
          (persistRecordLoop iface cfg jit ageAt r st attempt).dlq = st.dlq) ∧
        (reason ≠ ExitReason.success →
          ∃ emsg, (persistRecordLoop iface cfg jit ageAt r st attempt).dlq =
            st.dlq ++ [(r, emsg)])) := by
  refine ⟨?_, ?_, ?_⟩
  · intro n base maxMs j
    refine ⟨rfl, fun h => ⟨Nat.le_add_right .., ?_⟩⟩
    unfold jitteredBackoff
    rw [Nat.add_sub_cancel_left]
    exact h
  · intro jit ageAt r ids0 p rt dl ls sw dlqv ex hage
    rw [flaky_run jit ageAt r ids0 p rt dl ls sw dlqv ex hage]
    refine ⟨rfl, rfl, ?_, rfl, rfl⟩
    show sw + 700 ≤ sw + (100 + jit 0) + (200 + jit 1) + (400 + jit 2)
    omega
  · intro σ iface cfg jit ageAt r st attempt
    exact persistRecordLoop_exit iface cfg jit ageAt r st attempt

/-- C7, witness: the backoff formula at attempt 0 with jitter 10, and the
concrete three-transient-failures run with zero jitter summing to exactly
700 ms of waiting. -/
theorem c7_retry_backoff_and_exit_conditions_witness :
    jitteredBackoff 0 100 5000 10 = 110 ∧
    (persistRecordLoop (flakyIface 3 "database is locked") defaultRetryCfg (fun _ => 0)
        (fun _ => 0) (mkIngestRecord sampleMsg 0) ⟨(0, []), 0, 0, 0, 0, [], 0, []⟩ 0).sumWait =
      700 ∧
    (persistRecordLoop (flakyIface 3 "database is locked") defaultRetryCfg (fun _ => 0)
        (fun _ => 0) (mkIngestRecord sampleMsg 0) ⟨(0, []), 0, 0, 0, 0, [], 0, []⟩ 0).retried =
      3 := by
  have h := c7_retry_backoff_and_exit_conditions
  have h1 := (h.1 0 100 5000 10).1
  have h2 := h.2.1 (fun _ => 0) (fun _ => 0) (mkIngestRecord sampleMsg 0) [] 0 0 0 0 0 [] []
    (fun _ => by norm_num)
  refine ⟨by rw [h1]; norm_num, by rw [h2.2.1]; norm_num, by rw [h2.1]⟩

/-! ### Claim C8: structure and termination of split-on-failure -/

/-- C8: persistBatchSplitOnFailure is a total function (its Lean definition
is well-founded on the batch length), and its recursion has exactly the
claimed shape: on a transient error with at least two records and depth
below 20 it recurses on the first ⌊n/2⌋ records and on the rest, both
strictly smaller and non-empty; on a non-transient error, a singleton
batch, or depth ≥ 20 it falls through to the per-record retry path — so no
unbounded recursion is possible. -/
theorem c8_split_on_failure_structure :
    (∀ (σ : Type) (iface : StoreIface σ) (cfg : RetryCfg) (jit ageAt : Nat → Nat)
      (st : WorkerState σ) (records : List IngestRecord) (depth : Nat)
      (s1 : σ) (e : PErr),
      2 ≤ records.length → depth < 20 →
      persistOnce iface st.store records = (s1, some e) →
      isTransientError e.message = true →
      (persistBatchSplitOnFailure iface cfg jit ageAt st records depth =
        persistBatchSplitOnFailure iface cfg jit ageAt
          (persistBatchSplitOnFailure iface cfg jit ageAt { st with store := s1 }
            (records.take (records.length / 2)) (depth + 1))
          (records.drop (records.length / 2)) (depth + 1)) ∧
      0 < (records.take (records.length / 2)).length ∧
      (records.take (records.length / 2)).length < records.length ∧
      0 < (records.drop (records.length / 2)).length ∧
      (records.drop (records.length / 2)).length < records.length) ∧
    (∀ (σ : Type) (iface : StoreIface σ) (cfg : RetryCfg) (jit ageAt : Nat → Nat)
      (st : WorkerState σ) (records : List IngestRecord) (depth : Nat)
      (s1 : σ) (e : PErr),
      records.length ≠ 0 →
      persistOnce iface st.store records = (s1, some e) →
      (isTransientError e.message = false ∨ records.length = 1 ∨ 20 ≤ depth) →
      persistBatchSplitOnFailure iface cfg jit ageAt st records depth =
        persistEachWithRetryOrDlq iface cfg jit ageAt { st with store := s1 } records) := by
  constructor
  · intro σ iface cfg jit ageAt st records depth s1 e hn hd hres ht
    have hcond : ¬(isTransientError e.message = false ∨ records.length = 1 ∨ 20 ≤ depth) := by
      rw [ht]
      push_neg
      refine ⟨fun h => Bool.noConfusion h, by omega, by omega⟩
    refine ⟨?_, ?_, ?_, ?_, ?_⟩
    · rw [persistBatchSplitOnFailure, hres]
      rw [dif_neg (by omega)]
      split
      · rename_i s1' heq
        exact absurd heq (by simp)
      · rename_i s1' e' heq
        injection heq with h1 h2
        injection h2 with h2
        subst h1
        subst h2
        dsimp only
        rw [dif_neg hcond]
    · simp [List.length_take]
      omega
    · simp [List.length_take]
      omega
    · simp [List.length_drop]
      omega
    · simp [List.length_drop]
      omega
  · intro σ iface cfg jit ageAt st records depth s1 e hn hres hcond
    rw [persistBatchSplitOnFailure, hres]
    rw [dif_neg hn]
    split
    · rename_i s1' heq
      exact absurd heq (by simp)
    · rename_i s1' e' heq
      injection heq with h1 h2
      injection h2 with h2
      subst h1
      subst h2
      dsimp only
      rw [dif_pos hcond]

/-- C8, witness: the split equation and size bounds on a concrete
two-record batch against a store that rejects it with the transient error
timeout. -/
theorem c8_split_on_failure_structure_witness :
    (persistBatchSplitOnFailure (poisonIface "P" "timeout") defaultRetryCfg
        (fun _ => 0) (fun _ => 0) ⟨[], 0, 0, 0, 0, [], 0, []⟩
        [mkIngestRecord sampleMsg 0, mkIngestRecord poisonMsg 0] 0 =
      persistBatchSplitOnFailure (poisonIface "P" "timeout") defaultRetryCfg
        (fun _ => 0) (fun _ => 0)
        (persistBatchSplitOnFailure (poisonIface "P" "timeout") defaultRetryCfg
          (fun _ => 0) (fun _ => 0) ⟨[], 0, 0, 0, 0, [], 0, []⟩
          [mkIngestRecord sampleMsg 0] 1)
        [mkIngestRecord poisonMsg 0] 1) ∧
    (0 : Nat) < 1 ∧ (1 : Nat) < 2 := by
  have h := c8_split_on_failure_structure.1 (List String) (poisonIface "P" "timeout")
    defaultRetryCfg (fun _ => 0) (fun _ => 0) ⟨[], 0, 0, 0, 0, [], 0, []⟩
    [mkIngestRecord sampleMsg 0, mkIngestRecord poisonMsg 0] 0 [] ⟨"timeout"⟩
    (by decide) (by decide) (by decide) (by decide)
  exact ⟨h.1, h.2.1, h.2.2.1⟩

end Baileys
